import Mathlib

/-!
Verification of the multi-tenant schema isolation and provisioning engine
of the Atualizad repository.

The development shallowly embeds the tenant data layer:

* `Database.createTenant`, `Database.deleteTenant`, `Database.ensureTenantSchema`,
  `Database.validateTenantTables`, `Database.createTenantSchemaWithTables`,
  `Database.createMissingTables`, `Database.getIndividualTableSQL`
  (server config/database.ts);
* `TenantDatabase.executeInTenantSchema` and the `tenantDB` factory
  (same module);
* the record-access helpers `insertInTenantSchema`, `updateInTenantSchema`,
  `softDeleteInTenantSchema` (src/utils/tenantHelpers.ts);
* the request gate `validateTenantAccess` (src/middleware/tenant-isolation.ts).

The database is modelled as an explicit state: the set of existing schemas,
the existing tables with their rows, the tenant registry (the global Prisma
`tenant` table), a trace of every raw SQL statement submitted to the driver,
and a fault set `fails` of statements whose submission raises a driver error
(modelling I/O failure nondeterminism).  Stateful code is explicit state
passing: a computation is a function from a state to an `Except` result
paired with the successor state; an exception propagates (the source's
try/catch blocks log and rethrow) while the database state persists.

Raw SQL statements are represented structurally: the source splits every
per-table definition on semicolons and submits single statements, so each
`Stmt` is one statement.  Catalog reads (`information_schema` existence
checks) are modelled as pure reads of the state and are not traced; the
claims under audit concern only DDL and DML submissions.
-/

/-- A JSON-ish runtime value, as far as the helpers inspect one: the insert
helper only distinguishes `undefined`/`null` (removed) from everything else,
and the claims speak of array-valued and string-valued fields.  Array and
object payloads are never inspected by the embedded code, so they are not
carried. -/
inductive JVal where
  | null
  | undef
  | str (s : String)
  | num (n : Int)
  | bool (b : Bool)
  | arr
  | obj
  deriving Repr, DecidableEq

/-- Serialization of a bound parameter value, standing for the driver-side
encoding of the value; the embedded code never inspects the result. -/
def JVal.serialize : JVal → String
  | .null => "null"
  | .undef => "undefined"
  | .str s => s
  | .num n => toString n
  | .bool b => toString b
  | .arr => "[]"
  | .obj => "\x7b\x7d"

/-- A row of the tenant registry (the global `tenant` table).  Only the
columns the verified operations read are carried: `id`, `name`,
`schemaName`, `isActive`.  Plan type, quotas and timestamps are never
inspected by the embedded code. -/
structure Tenant where
  id : String
  name : String
  schemaName : String
  isActive : Bool
  deriving Repr, DecidableEq

/-- A row of a tenant-schema table, with the uniform audit shape the claims
mention: `id`, the soft-delete flag `is_active`, the `updated_at` stamp, and
the remaining domain columns as a field list. -/
structure Row where
  id : String
  is_active : Bool
  updated_at : Nat
  fields : List (String × JVal)
  deriving Repr, DecidableEq

/-- A physical table: its schema, its name, and its rows. -/
structure TableInst where
  schema : String
  name : String
  rows : List Row
  deriving Repr, DecidableEq

/-- A single raw SQL statement submitted to the driver.  The source splits
multi-statement table definitions on semicolons before submission, so each
constructor is one statement.  `query` carries the final SQL text (after
placeholder substitution) and the bound parameters. -/
inductive Stmt where
  | createSchema (name : String)
  | createTable (schema : String) (table : String)
  | createIndex (idx : String) (schema : String) (table : String) (col : String)
  | dropSchema (name : String)
  | query (sql : String) (params : List String)
  deriving Repr, DecidableEq

/-- True exactly on the destructive `DROP SCHEMA ... CASCADE` statement. -/
def Stmt.isDropSchema : Stmt → Bool
  | .dropSchema _ => true
  | _ => false

/-- True when the statement only creates the given table of the given
schema (the table itself or one of its indexes) and touches nothing else. -/
def touchesOnlyTable (sch tbl : String) : Stmt → Bool
  | .createTable s t => s == sch && t == tbl
  | .createIndex _ s t _ => s == sch && t == tbl
  | _ => false

/-- Errors surfaced by the data layer. -/
inductive DBError where
  | tenantNotFound (tenantId : String)
  | tenantInactive (tenantId : String)
  | invalidSchemaName (name : String)
  | execFailure
  | recordNotFound
  deriving Repr, DecidableEq

/-- The database state: existing schemas, existing tables (with rows), the
tenant registry, the trace of submitted raw statements, the fault set of
statements whose submission fails, and the current clock (`NOW()`). -/
structure DBState where
  schemas : List String
  tables : List TableInst
  tenants : List Tenant
  trace : List Stmt
  fails : List Stmt
  now : Nat
  deriving Repr, DecidableEq

deriving instance DecidableEq for Except

/-- A database computation: explicit state passing with exception
propagation.  Errors propagate but the state persists (the real database
keeps its state when a statement raises). -/
def DBM (α : Type) : Type := DBState → Except DBError α × DBState

instance : Monad DBM where
  pure a := fun st => (.ok a, st)
  bind m f := fun st =>
    match m st with
    | (.ok a, st') => f a st'
    | (.error e, st') => (.error e, st')

/-- Read the current state. -/
def getState : DBM DBState := fun st => (.ok st, st)

/-- Replace the current state. -/
def setState (s : DBState) : DBM Unit := fun _ => (.ok (), s)

/-- Modify the current state. -/
def modifyState (f : DBState → DBState) : DBM Unit := fun st => (.ok (), f st)

/-- Raise a data-layer error; the state persists. -/
def throwDB {α : Type} (e : DBError) : DBM α := fun st => (.error e, st)

theorem DBM.pure_apply {α : Type} (a : α) (st : DBState) :
    (pure a : DBM α) st = (.ok a, st) := rfl

theorem DBM.bind_apply {α β : Type} (m : DBM α) (f : α → DBM β) (st : DBState) :
    (m >>= f) st =
      match m st with
      | (.ok a, st') => f a st'
      | (.error e, st') => (.error e, st') := rfl

/-- True when a table of this schema and name exists. -/
def tableExistsB (st : DBState) (sch tbl : String) : Bool :=
  st.tables.any (fun ti => ti.schema == sch && ti.name == tbl)

/-- Effect of one successfully executed statement on the database state.
`CREATE SCHEMA IF NOT EXISTS` and `CREATE TABLE IF NOT EXISTS` are no-ops
when the object exists; `DROP SCHEMA ... CASCADE` removes the schema and
every table in it; index objects are not carried in the state; a DML
`query` statement's row effect is applied separately by the record-access
helpers.  The trace, fault set, registry and clock are untouched. -/
def applyStmt : Stmt → DBState → DBState
  | .createSchema n, st =>
      if st.schemas.contains n then st
      else { st with schemas := st.schemas ++ [n] }
  | .createTable sch tbl, st =>
      if tableExistsB st sch tbl then st
      else { st with tables := st.tables ++ [{ schema := sch, name := tbl, rows := [] }] }
  | .createIndex _ _ _ _, st => st
  | .dropSchema n, st =>
      { st with schemas := st.schemas.filter (fun s => s != n),
                tables := st.tables.filter (fun ti => ti.schema != n) }
  | .query _ _, st => st

/-- Submission of one raw statement (`$executeRawUnsafe` / `$queryRawUnsafe`):
the statement is traced, then either the driver fault fires (error, no
effect) or the statement's effect is applied. -/
def execRaw (s : Stmt) : DBM Unit := fun st =>
  let st1 := { st with trace := st.trace ++ [s] }
  if st.fails.contains s then (.error .execFailure, st1)
  else (.ok (), applyStmt s st1)

/-- Submission of a list of single statements, in order, stopping at the
first failure (the source awaits each in a loop and rethrows). -/
def execStmts : List Stmt → DBM Unit
  | [] => pure ()
  | s :: rest => do
      execRaw s
      execStmts rest

/-- The required tenant-schema table list of `Database.validateTenantTables`. -/
def requiredTables : List String :=
  ["clients", "projects", "tasks", "transactions", "invoices", "publications", "categories"]

/-- Statements of one per-table definition of
`Database.getIndividualTableSQL`, already split on semicolons as the source
does before submission: the `CREATE TABLE IF NOT EXISTS` followed by the
table's `CREATE INDEX IF NOT EXISTS` statements.  Column lists are not
carried structurally; the claims under audit concern which objects are
created, not their columns. -/
def tableDefStmts (schemaName tableName : String) (indexCols : List (String × String)) :
    List Stmt :=
  Stmt.createTable schemaName tableName ::
    indexCols.map (fun ic =>
      Stmt.createIndex ("idx_" ++ schemaName ++ "_" ++ tableName ++ "_" ++ ic.1)
        schemaName tableName ic.2)

/-- Embedding of `Database.getIndividualTableSQL`: the ordered per-table
definitions, each a table name paired with its statement batch. -/
def getIndividualTableSQL (schemaName : String) : List (String × List Stmt) :=
  [ ("clients", tableDefStmts schemaName "clients"
      [("email", "email"), ("status", "status"), ("active", "is_active")]),
    ("projects", tableDefStmts schemaName "projects"
      [("status", "status"), ("client_id", "client_id"), ("active", "is_active")]),
    ("tasks", tableDefStmts schemaName "tasks"
      [("status", "status"), ("project_id", "project_id"), ("active", "is_active")]),
    ("transactions", tableDefStmts schemaName "transactions"
      [("type", "type"), ("date", "date"), ("active", "is_active")]),
    ("invoices", tableDefStmts schemaName "invoices"
      [("status", "status"), ("due_date", "due_date"), ("active", "is_active")]),
    ("publications", tableDefStmts schemaName "publications"
      [("status", "status"), ("user_id", "user_id"), ("active", "is_active")]),
    ("categories", tableDefStmts schemaName "categories"
      [("type", "type"), ("active", "is_active")]) ]

/-- Statement batch of a single table definition, as
`Database.createMissingTables` looks it up (`find` on the definition list);
empty when the table is not a known definition. -/
def tableStmtsFor (schemaName tableName : String) : List Stmt :=
  match (getIndividualTableSQL schemaName).find? (fun d => d.1 == tableName) with
  | some d => d.2
  | none => []

/-- A character allowed by the safe-identifier pattern `[a-zA-Z0-9_]`. -/
def isSafeChar (c : Char) : Bool :=
  c.isAlpha || c.isDigit || c == '_'

/-- Embedding of the guard regular expression test
`/^[a-zA-Z0-9_]+$/.test(name)`: nonempty, and every character a letter,
digit or underscore. -/
def validSchemaName (s : String) : Bool :=
  !s.isEmpty && s.data.all isSafeChar

/-- Embedding of `Database.createTenantSchemaWithTables`: validate the name
against the safe-identifier pattern, create the schema, then submit every
table definition's statements one statement at a time. -/
def createTenantSchemaWithTables (schemaName : String) : DBM Unit := do
  if validSchemaName schemaName then do
    execRaw (.createSchema schemaName)
    goTables (getIndividualTableSQL schemaName)
  else throwDB (.invalidSchemaName schemaName)
where
  /-- Loop over the table definitions, submitting each batch's statements
  individually. -/
  goTables : List (String × List Stmt) → DBM Unit
    | [] => pure ()
    | d :: rest => do
        execStmts d.2
        goTables rest

/-- Embedding of `Database.createMissingTables`: for each missing table
name, look up its definition and submit its statements individually; a
name with no definition contributes no statements (`tableStmtsFor` is
empty there, matching the source's skipped lookup miss). -/
def createMissingTables (schemaName : String) : List String → DBM Unit
  | [] => pure ()
  | t :: rest => do
      execStmts (tableStmtsFor schemaName t)
      createMissingTables schemaName rest

/-- The catalog read of `Database.validateTenantTables`: the names of the
tables existing in the schema. -/
def listTableNames (st : DBState) (schemaName : String) : List String :=
  (st.tables.filter (fun ti => ti.schema == schemaName)).map (fun ti => ti.name)

/-- The drift computation of `Database.validateTenantTables`: the required
tables the schema lacks. -/
def missingOf (st : DBState) (schemaName : String) : List String :=
  requiredTables.filter (fun t => !(listTableNames st schemaName).contains t)

/-- Embedding of `Database.validateTenantTables`: read the existing table
names of the schema from the catalog, compute the required tables that are
missing, and create exactly those. -/
def validateTenantTables (schemaName : String) : DBM Unit := do
  let st ← getState
  let missingTables := missingOf st schemaName
  if missingTables.length > 0 then createMissingTables schemaName missingTables
  else pure ()

/-- Resolution of the schema name used by `Database.ensureTenantSchema` and
`TenantDatabase.getSchemaName`: a provided non-empty name wins (an absent or
empty name is falsy in the source), otherwise the registry row of the
tenant is read; a missing row raises `Tenant ... not found`. -/
def resolveSchemaName (tenantId : String) (schemaName? : Option String) : DBM String :=
  fun st =>
    let given := schemaName?.getD ""
    if given.isEmpty then
      match st.tenants.find? (fun t => t.id == tenantId) with
      | none => (.error (.tenantNotFound tenantId), st)
      | some t => (.ok t.schemaName, st)
    else (.ok given, st)

/-- Embedding of `Database.ensureTenantSchema`: resolve the schema name,
check existence through the catalog, create schema and tables when absent,
otherwise heal missing tables; return the schema name. -/
def ensureTenantSchema (tenantId : String) (schemaName? : Option String) : DBM String := do
  let finalSchemaName ← resolveSchemaName tenantId schemaName?
  let st ← getState
  let _ ← if !(st.schemas.contains finalSchemaName) then
      createTenantSchemaWithTables finalSchemaName
    else
      validateTenantTables finalSchemaName
  pure finalSchemaName

/-- Embedding of `Database.deleteTenant`: read the tenant row; when it
exists, validate its stored schema name against the safe-identifier pattern
(raising `Invalid schema name` on failure, before any drop), then submit
the `DROP SCHEMA IF EXISTS ... CASCADE`; finally delete the registry row
(Prisma raises when no row matches the id). -/
def deleteTenant (id : String) : DBM Unit := do
  let st ← getState
  match st.tenants.find? (fun t => t.id == id) with
  | some tenant =>
      if validSchemaName tenant.schemaName then do
        execRaw (.dropSchema tenant.schemaName)
        modifyState (fun s => { s with tenants := s.tenants.filter (fun t => t.id != id) })
      else throwDB (.invalidSchemaName tenant.schemaName)
  | none => throwDB .recordNotFound

/-- Character of one base-36 digit, as produced by JavaScript
`Number.prototype.toString(36)`: `0`-`9` then lower-case `a`-`z`. -/
def base36Char (d : Nat) : Char :=
  if d < 10 then Char.ofNat (48 + d) else Char.ofNat (87 + d)

/-- The random suffix `Math.random().toString(36).substring(2, 8)`: up to
six base-36 digit characters of the fractional expansion, modelled over the
digit sequence of the random draw. -/
def base36Suffix (digits : List Nat) : String :=
  ⟨(digits.take 6).map (fun d => base36Char (d % 36))⟩

/-- Decimal digit characters of a natural number, most significant first
(accumulator form; the fuel bounds the digit count and any fuel of at
least the digit count yields the full expansion). -/
def natToDecimalGo (repl : Nat) (n : Nat) (acc : List Char) : List Char :=
  match repl with
  | 0 => acc
  | fuel + 1 => if n = 0 then acc else natToDecimalGo fuel (n / 10) (base36Char (n % 10) :: acc)

/-- Decimal rendering of a natural number, as the template literal
interpolation of `Date.now()` produces. -/
def natToDecimal (n : Nat) : String :=
  if n = 0 then "0" else ⟨natToDecimalGo n n []⟩

/-- Embedding of the global hyphen-stripping replacement applied to
`baseSchemaName` (replace every `-` with the empty string). -/
def removeDashes (s : String) : String :=
  ⟨s.data.filter (fun c => c != '-')⟩

/-- The normalized schema name `Database.createTenant` generates:
`tenant_<Date.now()>_<random base-36 suffix>` with hyphens removed. -/
def genSchemaName (nowMs : Nat) (digits : List Nat) : String :=
  removeDashes ("tenant_" ++ natToDecimal nowMs ++ "_" ++ base36Suffix digits)

/-- Embedding of `Database.createTenant`: generate the normalized schema
name, insert the registry row, then provision the schema and tables
immediately through `ensureTenantSchema`; the clock reading and the random
draw of the name generator are explicit arguments, and the row id assigned
by the store is the `newId` argument. -/
def createTenant (nowMs : Nat) (digits : List Nat) (newId tname : String)
    (active : Bool) : DBM Tenant := do
  let normalizedSchemaName := genSchemaName nowMs digits
  let tenant : Tenant :=
    { id := newId, name := tname, schemaName := normalizedSchemaName, isActive := active }
  modifyState (fun st => { st with tenants := st.tenants ++ [tenant] })
  let _ ← ensureTenantSchema tenant.id (some tenant.schemaName)
  pure tenant

/-- The `TenantDatabase` object: a tenant id and the (optionally cached)
schema name, as the constructor stores them. -/
structure TenantDatabaseRec where
  tenantId : String
  schemaName : Option String
  deriving Repr, DecidableEq

/-- Embedding of `tenantDB.getTenantDatabase`: read the tenant row by id,
fail closed for a missing or inactive tenant, ensure the schema exists, and
hand back a `TenantDatabase` carrying the ensured schema name. -/
def getTenantDatabase (tenantId : String) : DBM TenantDatabaseRec := do
  let st ← getState
  match st.tenants.find? (fun t => t.id == tenantId) with
  | none => throwDB (.tenantNotFound tenantId)
  | some tenant =>
      if !tenant.isActive then throwDB (.tenantInactive tenantId)
      else do
        let schemaName ← ensureTenantSchema tenantId (some tenant.schemaName)
        pure { tenantId := tenantId, schemaName := some schemaName }

/-- The namespace placeholder the query templates carry. -/
def schemaPlaceholder : String := "${schema}"

/-- Scanner of the global placeholder replacement: each occurrence of the
placeholder, scanned left to right, is replaced by `repl`; the fuel bounds
the scan length and any fuel of at least the text length completes it. -/
def substSchemaGo (repl : List Char) : Nat → List Char → List Char
  | 0, l => l
  | fuel + 1, l =>
      match l with
      | [] => []
      | c :: rest =>
          if (c :: rest).take schemaPlaceholder.data.length = schemaPlaceholder.data then
            repl ++ substSchemaGo repl fuel ((c :: rest).drop schemaPlaceholder.data.length)
          else c :: substSchemaGo repl fuel rest

/-- Embedding of the global template substitution
`query.replace(new RegExp of the schema placeholder, schemaName)`: every
occurrence of the `schema` placeholder is replaced by the resolved name. -/
def substSchema (q schemaName : String) : String :=
  ⟨substSchemaGo schemaName.data q.data.length q.data⟩

/-- Embedding of `TenantDatabase.executeInTenantSchema`: resolve the schema
name, ensure the tenant schema exists, substitute every occurrence of the
placeholder with the resolved name, and submit the final query with the
values as bound parameters.  The driver's row result is not modelled at the
string level; the record-access helpers below apply the row semantics of
the specific statement shapes they build. -/
def executeInTenantSchema (td : TenantDatabaseRec) (query : String)
    (params : List String) : DBM Unit := do
  let schemaName ← resolveSchemaName td.tenantId td.schemaName
  let _ ← ensureTenantSchema td.tenantId (some schemaName)
  let finalQuery := substSchema query schemaName
  execRaw (.query finalQuery params)

/-- Embedding of the `tenantDB.executeInTenantSchema` factory entry point:
build the gateway for the tenant, then execute through it. -/
def tenantDB_executeInTenantSchema (tenantId : String) (query : String)
    (params : List String) : DBM Unit := do
  let db ← getTenantDatabase tenantId
  executeInTenantSchema db query params

/-- The fixed JSONB-cast field-name list of the record-access helpers. -/
def jsonbFields : List String := ["tags", "address", "metadata", "settings", "data"]

/-- The fixed DATE-cast field-name list of the record-access helpers. -/
def dateFields : List String :=
  ["birth_date", "due_date", "start_date", "end_date", "paid_at", "completed_at"]

/-- Removal of `undefined` and `null` fields, as `insertInTenantSchema`
cleans its input. -/
def cleanData (data : List (String × JVal)) : List (String × JVal) :=
  data.filter (fun p => p.2 != JVal.undef && p.2 != JVal.null)

/-- Comma-and-space joining of SQL fragments. -/
def joinComma (parts : List String) : String :=
  String.intercalate ", " parts

/-- The per-column insert placeholder of `insertInTenantSchema`: position
`i` holds `$(i+1)`, cast to `jsonb` for a JSONB-listed column name and to
`date` for a DATE-listed column name; no other cast is inferred. -/
def insertPlaceholderFor (i : Nat) (col : String) : String :=
  if jsonbFields.contains col then "$" ++ toString (i + 1) ++ "::jsonb"
  else if dateFields.contains col then "$" ++ toString (i + 1) ++ "::date"
  else "$" ++ toString (i + 1)

/-- The placeholder list of `insertInTenantSchema`, one per column. -/
def insertPlaceholders (columns : List String) : List String :=
  columns.mapIdx insertPlaceholderFor

/-- The INSERT template `insertInTenantSchema` builds (whitespace
normalized to single spaces). -/
def buildInsertQuery (tableName : String) (data : List (String × JVal)) : String :=
  let cd := cleanData data
  let columns := cd.map (fun p => p.1)
  "INSERT INTO ${schema}." ++ tableName ++ " (" ++ joinComma columns ++ ") VALUES (" ++
    joinComma (insertPlaceholders columns) ++ ") RETURNING *"

/-- Embedding of `insertInTenantSchema`: clean the input, build the INSERT
template, and execute it through the gateway with the cleaned values as
bound parameters. -/
def insertInTenantSchema (td : TenantDatabaseRec) (tableName : String)
    (data : List (String × JVal)) : DBM Unit := do
  let cd := cleanData data
  executeInTenantSchema td (buildInsertQuery tableName data)
    (cd.map (fun p => p.2.serialize))

/-- The SET clause of `updateInTenantSchema`: column `i` is set to
`$(i+2)` (position 1 is the id), with the same JSONB/DATE cast inference as
the insert helper. -/
def buildUpdateSetClause (keys : List String) : String :=
  joinComma (keys.mapIdx (fun i key =>
    if jsonbFields.contains key then key ++ " = $" ++ toString (i + 2) ++ "::jsonb"
    else if dateFields.contains key then key ++ " = $" ++ toString (i + 2) ++ "::date"
    else key ++ " = $" ++ toString (i + 2)))

/-- The UPDATE template `updateInTenantSchema` builds (whitespace
normalized): every update stamps `updated_at = NOW()` and matches only the
active row of the given id. -/
def buildUpdateQuery (tableName : String) (keys : List String) : String :=
  "UPDATE ${schema}." ++ tableName ++ " SET " ++ buildUpdateSetClause keys ++
    ", updated_at = NOW() WHERE id = $1 AND is_active = TRUE RETURNING *"

/-- The soft-delete template of `softDeleteInTenantSchema` (whitespace
normalized). -/
def buildSoftDeleteQuery (tableName : String) : String :=
  "UPDATE ${schema}." ++ tableName ++
    " SET is_active = FALSE, updated_at = NOW() WHERE id = $1 AND is_active = TRUE RETURNING *"

/-- Write one column of a row's field list, overwriting an existing column
of that name and appending a fresh one otherwise. -/
def setField (fs : List (String × JVal)) (k : String) (v : JVal) : List (String × JVal) :=
  if fs.any (fun p => p.1 == k) then
    fs.map (fun p => if p.1 == k then (k, v) else p)
  else fs ++ [(k, v)]

/-- Apply a SET list to a row's field columns. -/
def setFields (fs : List (String × JVal)) (sets : List (String × JVal)) :
    List (String × JVal) :=
  sets.foldl (fun acc p => setField acc p.1 p.2) fs

/-- Row effect of the update helper's statement on one matched row: the SET
columns are written and `updated_at` is stamped with the clock. -/
def applyRowUpdate (clock : Nat) (sets : List (String × JVal)) (r : Row) : Row :=
  { r with updated_at := clock, fields := setFields r.fields sets }

/-- Row effect of the soft-delete statement on one matched row:
`is_active` is cleared and `updated_at` is stamped with the clock. -/
def applySoftDelete (clock : Nat) (r : Row) : Row :=
  { r with is_active := false, updated_at := clock }

/-- The rows a `WHERE id = $1 AND is_active = TRUE` clause matches in the
given table of the given schema. -/
def activeMatches (st : DBState) (schemaName tableName rid : String) : List Row :=
  match st.tables.find? (fun ti => ti.schema == schemaName && ti.name == tableName) with
  | none => []
  | some ti => ti.rows.filter (fun r => r.id == rid && r.is_active)

/-- Relational semantics of an `UPDATE <schema>.<table> SET ...,
updated_at = NOW() WHERE id = $1 AND is_active = TRUE RETURNING *`
statement: every matched row is rewritten by `f`, unmatched rows are
untouched, and the first returned row (or `none`, the helper's
`result[0] || null`) is the outcome.  A missing relation raises a driver
error. -/
def runUpdateWhereActive (schemaName tableName rid : String) (f : Nat → Row → Row) :
    DBM (Option Row) := fun st =>
  match st.tables.find? (fun ti => ti.schema == schemaName && ti.name == tableName) with
  | none => (.error .execFailure, st)
  | some ti =>
      let hit := ti.rows.filter (fun r => r.id == rid && r.is_active)
      let tables' := st.tables.map (fun t =>
        if t.schema == schemaName && t.name == tableName then
          { t with rows := t.rows.map (fun r =>
              if r.id == rid && r.is_active then f st.now r else r) }
        else t)
      (.ok ((hit.map (f st.now)).head?), { st with tables := tables' })

/-- Embedding of `updateInTenantSchema`: build the UPDATE template, execute
it through the gateway with `[id, ...values]` as bound parameters, and
apply the statement's row semantics; the helper returns the first returned
row or `null`. -/
def updateInTenantSchema (td : TenantDatabaseRec) (tableName rid : String)
    (data : List (String × JVal)) : DBM (Option Row) := do
  executeInTenantSchema td (buildUpdateQuery tableName (data.map (fun p => p.1)))
    (rid :: data.map (fun p => p.2.serialize))
  let schemaName ← resolveSchemaName td.tenantId td.schemaName
  runUpdateWhereActive schemaName tableName rid (fun clock => applyRowUpdate clock data)

/-- Embedding of `softDeleteInTenantSchema`: build the soft-delete
template, execute it through the gateway with the id bound, and apply the
statement's row semantics; the helper returns the first returned row or
`null`. -/
def softDeleteInTenantSchema (td : TenantDatabaseRec) (tableName rid : String) :
    DBM (Option Row) := do
  executeInTenantSchema td (buildSoftDeleteQuery tableName) [rid]
  let schemaName ← resolveSchemaName td.tenantId td.schemaName
  runUpdateWhereActive schemaName tableName rid (fun clock => applySoftDelete clock)

/-- Lexical test for the canonical 8-4-4-4-12 hex identifier (UUID) format,
the identifier-format pattern the specification's cast-inference clause
names. -/
def isHexDigit (c : Char) : Bool :=
  c.isDigit || (('a' ≤ c && c ≤ 'f') || ('A' ≤ c && c ≤ 'F'))

/-- Split a character list into the hyphen-separated groups. -/
def splitDash : List Char → List (List Char)
  | [] => [[]]
  | c :: rest =>
      match splitDash rest with
      | [] => if c = '-' then [[], []] else [[c]]
      | g :: gs => if c = '-' then [] :: g :: gs else (c :: g) :: gs

def matchesUuidPattern (s : String) : Bool :=
  match splitDash s.data with
  | [a, b, c, d, e] =>
      a.length == 8 && b.length == 4 && c.length == 4 && d.length == 4 &&
        e.length == 12 && (a ++ b ++ c ++ d ++ e).all isHexDigit
  | _ => false

/-- The authenticated principal the request gate reads (`req.user`): its
role and its optional tenant association. -/
structure Principal where
  role : String
  tenantId : Option String
  deriving Repr, DecidableEq

/-- An HTTP denial or error response: status code and the `error` field of
the JSON body. -/
structure HttpResponse where
  status : Nat
  errorMsg : String
  deriving Repr, DecidableEq

/-- Outcome of the request-boundary gate: pass the request on (with the
resolved tenant attached for regular users) or respond immediately. -/
inductive GateOutcome where
  | nextWith (tenant : Option Tenant)
  | respond (r : HttpResponse)
  deriving Repr, DecidableEq

/-- Embedding of `validateTenantAccess` (tenant-isolation middleware): no
principal is a 401; admin roles bypass; a missing (or empty, falsy) tenant
association is a 403; then the tenant registry is consulted and a missing
row, respectively an inactive row, produces the corresponding 403 denial;
otherwise the tenant is attached and the request proceeds. -/
def validateTenantAccess (user? : Option Principal) (tenants : List Tenant) :
    GateOutcome :=
  match user? with
  | none => .respond { status := 401, errorMsg := "Authentication required" }
  | some user =>
      if user.role == "admin" || user.role == "super_admin" then .nextWith none
      else
        let tid := user.tenantId.getD ""
        if tid.isEmpty then
          .respond { status := 403,
                     errorMsg := "Access denied: Invalid user tenant association" }
        else
          match tenants.find? (fun t => t.id == tid) with
          | none =>
              .respond { status := 403, errorMsg := "Access denied: Tenant not found" }
          | some tenant =>
              if !tenant.isActive then
                .respond { status := 403,
                           errorMsg := "Access denied: Tenant is inactive" }
              else .nextWith (some tenant)

theorem getState_apply (st : DBState) : getState st = (.ok st, st) := rfl

theorem modifyState_apply (f : DBState → DBState) (st : DBState) :
    modifyState f st = (.ok (), f st) := rfl

theorem throwDB_apply {α : Type} (e : DBError) (st : DBState) :
    (throwDB e : DBM α) st = (.error e, st) := rfl

theorem DBM.ite_apply {α : Type} (c : Prop) [Decidable c] (m1 m2 : DBM α) (st : DBState) :
    (if c then m1 else m2) st = if c then m1 st else m2 st := by
  split <;> rfl

theorem contains_iff {α : Type} [BEq α] [LawfulBEq α] (l : List α) (a : α) :
    l.contains a = true ↔ a ∈ l :=
  List.elem_iff

theorem execRaw_apply (s : Stmt) (st : DBState) :
    execRaw s st =
      if st.fails.contains s then
        (.error .execFailure, { st with trace := st.trace ++ [s] })
      else (.ok (), applyStmt s { st with trace := st.trace ++ [s] }) := rfl

theorem applyStmt_tenants (s : Stmt) (st : DBState) :
    (applyStmt s st).tenants = st.tenants := by
  cases s <;> simp only [applyStmt] <;> first | rfl | (split <;> rfl)

theorem applyStmt_fails (s : Stmt) (st : DBState) :
    (applyStmt s st).fails = st.fails := by
  cases s <;> simp only [applyStmt] <;> first | rfl | (split <;> rfl)

theorem applyStmt_now (s : Stmt) (st : DBState) :
    (applyStmt s st).now = st.now := by
  cases s <;> simp only [applyStmt] <;> first | rfl | (split <;> rfl)

theorem applyStmt_trace (s : Stmt) (st : DBState) :
    (applyStmt s st).trace = st.trace := by
  cases s <;> simp only [applyStmt] <;> first | rfl | (split <;> rfl)

theorem tableExistsB_congr (st st' : DBState) (h : st'.tables = st.tables)
    (a b : String) : tableExistsB st' a b = tableExistsB st a b := by
  simp [tableExistsB, h]

/-- Relation between a state and a successor produced by provisioning
steps: registry, fault set and clock are untouched, the trace only grows
and only by non-drop statements, and existing schemas and tables persist. -/
def ProvStep (st st' : DBState) : Prop :=
  st'.tenants = st.tenants ∧ st'.fails = st.fails ∧ st'.now = st.now ∧
  (∃ delta, st'.trace = st.trace ++ delta ∧ ∀ x ∈ delta, x.isDropSchema = false) ∧
  (∀ n, st.schemas.contains n = true → st'.schemas.contains n = true) ∧
  (∀ a b, tableExistsB st a b = true → tableExistsB st' a b = true)

theorem ProvStep.refl (st : DBState) : ProvStep st st :=
  ⟨rfl, rfl, rfl, ⟨[], by simp, by simp⟩, fun _ h => h, fun _ _ h => h⟩

theorem ProvStep.trans {s1 s2 s3 : DBState} (h1 : ProvStep s1 s2) (h2 : ProvStep s2 s3) :
    ProvStep s1 s3 := by
  obtain ⟨t1, f1, n1, ⟨d1, tr1, nd1⟩, sc1, tb1⟩ := h1
  obtain ⟨t2, f2, n2, ⟨d2, tr2, nd2⟩, sc2, tb2⟩ := h2
  refine ⟨t2.trans t1, f2.trans f1, n2.trans n1, ⟨d1 ++ d2, ?_, ?_⟩,
    fun n h => sc2 n (sc1 n h), fun a b h => tb2 a b (tb1 a b h)⟩
  · rw [tr2, tr1, List.append_assoc]
  · intro x hx
    rcases List.mem_append.mp hx with h | h
    · exact nd1 x h
    · exact nd2 x h

theorem applyStmt_provStep (s : Stmt) (hs : s.isDropSchema = false) (st : DBState) :
    ProvStep st (applyStmt s st) := by
  cases s with
  | createSchema n =>
      by_cases h : st.schemas.contains n = true
      · simp only [applyStmt, h, if_pos]
        exact ProvStep.refl st
      · simp only [applyStmt, Bool.not_eq_true] at h
        simp only [applyStmt, h, Bool.false_eq_true, if_neg, not_false_iff]
        refine ⟨rfl, rfl, rfl, ⟨[], by simp, by simp⟩, ?_, fun a b h => h⟩
        intro m hm
        rw [contains_iff] at hm ⊢
        exact List.mem_append.mpr (Or.inl hm)
  | createTable sch tbl =>
      by_cases h : tableExistsB st sch tbl = true
      · simp only [applyStmt, h, if_pos]
        exact ProvStep.refl st
      · simp only [applyStmt, Bool.not_eq_true] at h
        simp only [applyStmt, h, Bool.false_eq_true, if_neg, not_false_iff]
        refine ⟨rfl, rfl, rfl, ⟨[], by simp, by simp⟩, fun n h => h, ?_⟩
        intro a b hab
        simp only [tableExistsB, List.any_eq_true] at hab ⊢
        obtain ⟨ti, hti, hp⟩ := hab
        exact ⟨ti, List.mem_append.mpr (Or.inl hti), hp⟩
  | createIndex i a b c => exact ProvStep.refl st
  | dropSchema n => simp [Stmt.isDropSchema] at hs
  | query q p => exact ProvStep.refl st

theorem execRaw_provStep (s : Stmt) (hs : s.isDropSchema = false) (st : DBState) :
    ProvStep st (execRaw s st).2 := by
  rw [execRaw_apply]
  by_cases h : st.fails.contains s = true
  · simp only [h, if_pos]
    exact ⟨rfl, rfl, rfl, ⟨[s], rfl, by simpa using hs⟩, fun _ h => h, fun _ _ h => h⟩
  · simp only [Bool.not_eq_true] at h
    simp only [h, Bool.false_eq_true, if_neg, not_false_iff]
    have h1 : ProvStep st { st with trace := st.trace ++ [s] } :=
      ⟨rfl, rfl, rfl, ⟨[s], rfl, by simpa using hs⟩, fun _ h => h, fun _ _ h => h⟩
    exact h1.trans (applyStmt_provStep s hs _)

theorem execStmts_provStep (l : List Stmt) (hl : ∀ x ∈ l, x.isDropSchema = false)
    (st : DBState) : ProvStep st (execStmts l st).2 := by
  induction l generalizing st with
  | nil => exact ProvStep.refl st
  | cons s rest ih =>
      have hs : s.isDropSchema = false := hl s (List.mem_cons_self s rest)
      have hrest : ∀ x ∈ rest, x.isDropSchema = false :=
        fun x hx => hl x (List.mem_cons_of_mem s hx)
      simp only [execStmts, DBM.bind_apply]
      rcases hr : execRaw s st with ⟨res, st1⟩
      have hstep : ProvStep st st1 := by
        have := execRaw_provStep s hs st
        rwa [hr] at this
      cases res with
      | ok a => exact hstep.trans (ih hrest st1)
      | error e => exact hstep

theorem beq_swap {α : Type} [BEq α] [LawfulBEq α] (a b : α) : (a == b) = (b == a) := by
  cases h : a == b with
  | true => exact (beq_iff_eq.mpr (eq_of_beq h).symm).symm
  | false =>
      cases h2 : b == a with
      | true => rw [eq_of_beq h2] at h; simp at h
      | false => rfl

theorem resolveSchemaName_state (tenantId : String) (sn? : Option String) (st : DBState) :
    (resolveSchemaName tenantId sn? st).2 = st := by
  unfold resolveSchemaName
  by_cases h : ((sn?.getD "").isEmpty : Bool) = true
  · simp only [h, if_pos]
    cases hf : st.tenants.find? (fun t => t.id == tenantId) <;> rfl
  · simp only [Bool.not_eq_true] at h
    simp only [h, Bool.false_eq_true, if_neg, not_false_iff]

theorem resolveSchemaName_some (tenantId s : String) (hs : s.isEmpty = false)
    (st : DBState) : resolveSchemaName tenantId (some s) st = (.ok s, st) := by
  unfold resolveSchemaName
  simp [hs]

theorem resolveSchemaName_of_find (tenantId : String) (t : Tenant) (st : DBState)
    (hf : st.tenants.find? (fun x => x.id == tenantId) = some t) :
    resolveSchemaName tenantId (some t.schemaName) st = (.ok t.schemaName, st) := by
  unfold resolveSchemaName
  simp only [Option.getD_some]
  by_cases he : (t.schemaName.isEmpty : Bool) = true
  · simp only [he, if_pos, hf]
  · simp only [Bool.not_eq_true] at he
    simp only [he, Bool.false_eq_true, if_neg, not_false_iff]

theorem listTableNames_contains (st : DBState) (s t : String) :
    (listTableNames st s).contains t = tableExistsB st s t := by
  unfold listTableNames tableExistsB
  induction st.tables with
  | nil => rfl
  | cons ti l ih =>
      by_cases h : (ti.schema == s) = true
      · simp only [List.filter_cons, h, if_pos, List.map_cons, List.any_cons,
          List.contains_cons, ih, Bool.true_and]
        rw [beq_swap t ti.name]
      · simp only [Bool.not_eq_true] at h
        simp only [List.filter_cons, h, Bool.false_eq_true, if_neg, not_false_iff,
          List.any_cons, ih, Bool.false_and, Bool.false_or]

theorem missingOf_eq (st : DBState) (s : String) :
    missingOf st s = requiredTables.filter (fun t => !tableExistsB st s t) := by
  unfold missingOf
  refine List.filter_congr ?_
  intro t _
  rw [listTableNames_contains]

theorem filter_not_singleton {α : Type} [DecidableEq α] (l : List α) (hnd : l.Nodup)
    (b : α → Bool) (t : α) (ht : t ∈ l) (hbt : b t = false)
    (ho : ∀ u ∈ l, u ≠ t → b u = true) :
    l.filter (fun u => !b u) = [t] := by
  induction l with
  | nil => cases ht
  | cons a l ih =>
      by_cases hat : a = t
      · subst hat
        have hrest : l.filter (fun u => !b u) = [] := by
          rw [List.filter_eq_nil_iff]
          intro u hu
          have hne : u ≠ a := by
            intro he
            subst he
            exact (List.nodup_cons.mp hnd).1 hu
          rw [ho u (List.mem_cons_of_mem a hu) hne]
          simp
        simp [List.filter_cons, hbt, hrest]
      · have hta : t ∈ l := by
          rcases List.mem_cons.mp ht with h | h
          · exact absurd h.symm hat
          · exact h
        have hba : b a = true := ho a (List.mem_cons_self a l) hat
        simp only [List.filter_cons, hba, Bool.not_true, Bool.false_eq_true,
          if_neg, not_false_iff]
        exact ih (List.nodup_cons.mp hnd).2 hta
          (fun u hu hne => ho u (List.mem_cons_of_mem a hu) hne)

theorem requiredTables_nodup : requiredTables.Nodup := by decide

theorem missingOf_empty (st : DBState) (s : String)
    (h : ∀ t ∈ requiredTables, tableExistsB st s t = true) :
    missingOf st s = [] := by
  rw [missingOf_eq, List.filter_eq_nil_iff]
  intro t ht
  rw [h t ht]
  simp

theorem missingOf_singleton (st : DBState) (s t : String) (hmem : t ∈ requiredTables)
    (hmiss : tableExistsB st s t = false)
    (hothers : ∀ u ∈ requiredTables, u ≠ t → tableExistsB st s u = true) :
    missingOf st s = [t] := by
  rw [missingOf_eq]
  exact filter_not_singleton requiredTables requiredTables_nodup _ t hmem hmiss
    (fun u hu hne => hothers u hu hne)

/-- Pure state effect of submitting a statement list when no driver fault
fires: each statement is traced and applied in order. -/
def applySeq (l : List Stmt) (st : DBState) : DBState :=
  l.foldl (fun st s => applyStmt s { st with trace := st.trace ++ [s] }) st

theorem applySeq_nil (st : DBState) : applySeq [] st = st := rfl

theorem applySeq_cons (s : Stmt) (l : List Stmt) (st : DBState) :
    applySeq (s :: l) st = applySeq l (applyStmt s { st with trace := st.trace ++ [s] }) :=
  rfl

theorem applySeq_append (a b : List Stmt) (st : DBState) :
    applySeq (a ++ b) st = applySeq b (applySeq a st) := by
  simp [applySeq, List.foldl_append]

theorem applySeq_fails (l : List Stmt) (st : DBState) :
    (applySeq l st).fails = st.fails := by
  induction l generalizing st with
  | nil => rfl
  | cons s rest ih => rw [applySeq_cons, ih, applyStmt_fails]

theorem applySeq_tenants (l : List Stmt) (st : DBState) :
    (applySeq l st).tenants = st.tenants := by
  induction l generalizing st with
  | nil => rfl
  | cons s rest ih => rw [applySeq_cons, ih, applyStmt_tenants]

theorem applySeq_now (l : List Stmt) (st : DBState) :
    (applySeq l st).now = st.now := by
  induction l generalizing st with
  | nil => rfl
  | cons s rest ih => rw [applySeq_cons, ih, applyStmt_now]

theorem applySeq_trace (l : List Stmt) (st : DBState) :
    (applySeq l st).trace = st.trace ++ l := by
  induction l generalizing st with
  | nil => simp [applySeq_nil]
  | cons s rest ih =>
      rw [applySeq_cons, ih, applyStmt_trace]
      simp

theorem execStmts_clean (l : List Stmt) (st : DBState)
    (hf : ∀ x ∈ l, st.fails.contains x = false) :
    execStmts l st = (.ok (), applySeq l st) := by
  induction l generalizing st with
  | nil => rfl
  | cons s rest ih =>
      have hs := hf s (List.mem_cons_self s rest)
      simp only [execStmts, DBM.bind_apply, execRaw_apply, hs, Bool.false_eq_true,
        if_neg, not_false_iff]
      rw [applySeq_cons]
      apply ih
      intro x hx
      rw [applyStmt_fails]
      exact hf x (List.mem_cons_of_mem s hx)

/-- Statements that never change the modelled state: index creation and
DML queries (whose row effect is applied by the helper semantics, not
here). -/
def stateNeutral : Stmt → Bool
  | .createIndex _ _ _ _ => true
  | .query _ _ => true
  | _ => false

theorem applyStmt_neutral (s : Stmt) (h : stateNeutral s = true) (st : DBState) :
    applyStmt s st = st := by
  cases s <;> first | rfl | simp [stateNeutral] at h

theorem applySeq_neutral (l : List Stmt) (h : ∀ x ∈ l, stateNeutral x = true)
    (st : DBState) : applySeq l st = { st with trace := st.trace ++ l } := by
  induction l generalizing st with
  | nil => simp [applySeq_nil]
  | cons s rest ih =>
      rw [applySeq_cons, applyStmt_neutral s (h s (List.mem_cons_self s rest)),
        ih (fun x hx => h x (List.mem_cons_of_mem s hx))]
      simp

theorem tableDefStmts_noDrop (s t : String) (ics : List (String × String)) :
    ∀ x ∈ tableDefStmts s t ics, x.isDropSchema = false := by
  intro x hx
  rcases List.mem_cons.mp hx with rfl | hx
  · rfl
  · obtain ⟨ic, _, rfl⟩ := List.mem_map.mp hx
    rfl

theorem tableDefStmts_touches (s t : String) (ics : List (String × String)) :
    (tableDefStmts s t ics).all (touchesOnlyTable s t) = true := by
  rw [List.all_eq_true]
  intro x hx
  rcases List.mem_cons.mp hx with rfl | hx
  · simp [touchesOnlyTable]
  · obtain ⟨ic, _, rfl⟩ := List.mem_map.mp hx
    simp [touchesOnlyTable]

theorem applySeq_tableDef (s t : String) (ics : List (String × String)) (st : DBState)
    (hmiss : tableExistsB st s t = false) :
    applySeq (tableDefStmts s t ics) st =
      { st with tables := st.tables ++ [{ schema := s, name := t, rows := [] }],
                trace := st.trace ++ tableDefStmts s t ics } := by
  unfold tableDefStmts
  rw [applySeq_cons]
  have hmiss1 : tableExistsB
      { st with trace := st.trace ++ [Stmt.createTable s t] } s t = false := hmiss
  have h1 : applyStmt (Stmt.createTable s t)
      { st with trace := st.trace ++ [Stmt.createTable s t] } =
      { st with tables := st.tables ++ [{ schema := s, name := t, rows := [] }],
                trace := st.trace ++ [Stmt.createTable s t] } := by
    simp only [applyStmt, hmiss1, Bool.false_eq_true, if_neg, not_false_iff]
  rw [h1, applySeq_neutral]
  · simp
  · intro x hx
    obtain ⟨ic, _, rfl⟩ := List.mem_map.mp hx
    rfl

theorem tableStmtsFor_shape (s t : String) (ht : t ∈ requiredTables) :
    ∃ ics, tableStmtsFor s t = tableDefStmts s t ics := by
  fin_cases ht <;> exact ⟨_, rfl⟩

theorem tableStmtsFor_noDrop (s t : String) :
    ∀ x ∈ tableStmtsFor s t, x.isDropSchema = false := by
  intro x hx
  unfold tableStmtsFor at hx
  cases hfind : (getIndividualTableSQL s).find? (fun d => d.1 == t) with
  | none => rw [hfind] at hx; cases hx
  | some d =>
      rw [hfind] at hx
      have hd := List.mem_of_find?_eq_some hfind
      simp only [getIndividualTableSQL, List.mem_cons, List.mem_singleton,
        List.not_mem_nil, or_false] at hd
      rcases hd with rfl | rfl | rfl | rfl | rfl | rfl | rfl <;>
        exact tableDefStmts_noDrop _ _ _ x hx

/-- Concatenation of the statement batches of a table-definition list. -/
def defsStmts : List (String × List Stmt) → List Stmt
  | [] => []
  | d :: rest => d.2 ++ defsStmts rest

/-- Concatenation of the statement batches of a table-name list. -/
def flatStmts (s : String) : List String → List Stmt
  | [] => []
  | t :: rest => tableStmtsFor s t ++ flatStmts s rest

theorem defsStmts_eq_flatStmts (s : String) :
    defsStmts (getIndividualTableSQL s) = flatStmts s requiredTables := rfl

theorem execStmts_append (a b : List Stmt) (st : DBState) :
    execStmts (a ++ b) st =
      match execStmts a st with
      | (.ok _, st') => execStmts b st'
      | (.error e, st') => (.error e, st') := by
  induction a generalizing st with
  | nil => simp [execStmts, DBM.pure_apply]
  | cons s rest ih =>
      simp only [List.cons_append, execStmts, DBM.bind_apply]
      rcases hr : execRaw s st with ⟨res, st1⟩
      cases res with
      | ok a => exact ih st1
      | error e => rfl

theorem createMissingTables_eq_flat (s : String) (l : List String) (st : DBState) :
    createMissingTables s l st = execStmts (flatStmts s l) st := by
  induction l generalizing st with
  | nil => rfl
  | cons t rest ih =>
      simp only [createMissingTables, DBM.bind_apply, flatStmts, execStmts_append]
      rcases hr : execStmts (tableStmtsFor s t) st with ⟨res, st1⟩
      cases res with
      | ok a => exact ih st1
      | error e => rfl

theorem goTables_eq_flat (defs : List (String × List Stmt)) (st : DBState) :
    createTenantSchemaWithTables.goTables defs st = execStmts (defsStmts defs) st := by
  induction defs generalizing st with
  | nil => rfl
  | cons d rest ih =>
      simp only [createTenantSchemaWithTables.goTables, DBM.bind_apply, defsStmts,
        execStmts_append]
      rcases hr : execStmts d.2 st with ⟨res, st1⟩
      cases res with
      | ok a => exact ih st1
      | error e => rfl

theorem flatStmts_noDrop (s : String) (l : List String) :
    ∀ x ∈ flatStmts s l, x.isDropSchema = false := by
  induction l with
  | nil => intro x hx; cases hx
  | cons t rest ih =>
      intro x hx
      rcases List.mem_append.mp hx with h | h
      · exact tableStmtsFor_noDrop s t x h
      · exact ih x h

theorem tableExistsB_append_single (st : DBState) (tables2 : List TableInst)
    (s t : String) (ti : TableInst) :
    tableExistsB { st with tables := tables2 ++ [ti] } s t =
      (tableExistsB { st with tables := tables2 } s t || (ti.schema == s && ti.name == t)) := by
  simp [tableExistsB, List.any_append]

theorem applySeq_flatStmts (s : String) (ts : List String)
    (hreq : ∀ t ∈ ts, t ∈ requiredTables) (hnd : ts.Nodup) (st : DBState)
    (habs : ∀ t ∈ ts, tableExistsB st s t = false) :
    applySeq (flatStmts s ts) st =
      { st with
          tables := st.tables ++ ts.map (fun t => { schema := s, name := t, rows := [] }),
          trace := st.trace ++ flatStmts s ts } := by
  induction ts generalizing st with
  | nil => simp [flatStmts, applySeq_nil]
  | cons t rest ih =>
      obtain ⟨ics, hics⟩ := tableStmtsFor_shape s t (hreq t (List.mem_cons_self t rest))
      have habs_t : tableExistsB st s t = false := habs t (List.mem_cons_self t rest)
      simp only [flatStmts, applySeq_append, hics]
      rw [applySeq_tableDef s t ics st habs_t]
      set st1 : DBState :=
        { st with tables := st.tables ++ [{ schema := s, name := t, rows := [] }],
                  trace := st.trace ++ tableDefStmts s t ics } with hst1
      have habs1 : ∀ u ∈ rest, tableExistsB st1 s u = false := by
        intro u hu
        have h0 := habs u (List.mem_cons_of_mem t hu)
        simp only [tableExistsB] at h0
        have hne : (t == u) = false := by
          have hne' : t ≠ u := by
            intro he
            subst he
            exact (List.nodup_cons.mp hnd).1 hu
          simp [hne']
        simp only [hst1, tableExistsB, List.any_append, List.any_cons, List.any_nil,
          Bool.or_false]
        simp [h0, hne]
      rw [ih (fun u hu => hreq u (List.mem_cons_of_mem t hu))
        (List.nodup_cons.mp hnd).2 st1 habs1]
      simp only [hst1]
      simp [List.append_assoc]

theorem execStmts_ok_createTable (a b : String) (rest : List Stmt)
    (hrest : ∀ x ∈ rest, x.isDropSchema = false) (st st' : DBState) (u : Unit)
    (h : execStmts (Stmt.createTable a b :: rest) st = (.ok u, st')) :
    tableExistsB st' a b = true := by
  simp only [execStmts, DBM.bind_apply, execRaw_apply] at h
  by_cases hf : st.fails.contains (Stmt.createTable a b) = true
  · rw [hf] at h
    simp at h
  · simp only [Bool.not_eq_true] at hf
    rw [hf] at h
    simp only [Bool.false_eq_true, if_neg, not_false_iff] at h
    set st1 := applyStmt (Stmt.createTable a b)
      { st with trace := st.trace ++ [Stmt.createTable a b] } with hst1
    have hex : tableExistsB st1 a b = true := by
      rw [hst1]
      simp only [applyStmt]
      by_cases he : tableExistsB { st with trace := st.trace ++ [Stmt.createTable a b] } a b = true
      · rw [if_pos he]
        exact he
      · simp only [Bool.not_eq_true] at he
        rw [if_neg (by simp [he])]
        simp [tableExistsB, List.any_append]
    have hps := execStmts_provStep rest hrest st1
    have h2 : (execStmts rest st1).2 = st' := by rw [h]
    rw [h2] at hps
    exact hps.2.2.2.2.2 a b hex

theorem createMissingTables_provStep (s : String) (l : List String) (st : DBState) :
    ProvStep st (createMissingTables s l st).2 := by
  rw [createMissingTables_eq_flat]
  exact execStmts_provStep _ (flatStmts_noDrop s l) st

theorem createMissingTables_ok_creates (s : String) (l : List String)
    (st st' : DBState) (u : Unit) (h : createMissingTables s l st = (.ok u, st')) :
    ∀ t ∈ l, t ∈ requiredTables → tableExistsB st' s t = true := by
  induction l generalizing st with
  | nil => intro t ht; cases ht
  | cons t0 rest ih =>
      intro t ht hreq
      simp only [createMissingTables, DBM.bind_apply] at h
      rcases hr : execStmts (tableStmtsFor s t0) st with ⟨res, st1⟩
      rw [hr] at h
      cases res with
      | error e => simp at h
      | ok a =>
          replace h : createMissingTables s rest st1 = (.ok u, st') := h
          rcases List.mem_cons.mp ht with rfl | htr
          · obtain ⟨ics, hics⟩ := tableStmtsFor_shape s t hreq
            rw [hics] at hr
            simp only [tableDefStmts] at hr
            have h1 : tableExistsB st1 s t = true := by
              refine execStmts_ok_createTable s t _ ?_ st st1 a hr
              intro x hx
              obtain ⟨ic, _, rfl⟩ := List.mem_map.mp hx
              rfl
            have hps := createMissingTables_provStep s rest st1
            have h2 : (createMissingTables s rest st1).2 = st' := by rw [h]
            rw [h2] at hps
            exact hps.2.2.2.2.2 s t h1
          · exact ih st1 h t htr hreq

theorem defsStmts_noDrop (s : String) :
    ∀ x ∈ defsStmts (getIndividualTableSQL s), x.isDropSchema = false := by
  rw [defsStmts_eq_flatStmts]
  exact flatStmts_noDrop s requiredTables

theorem createTenantSchemaWithTables_provStep (s : String) (st : DBState) :
    ProvStep st (createTenantSchemaWithTables s st).2 := by
  unfold createTenantSchemaWithTables
  by_cases hv : validSchemaName s = true
  · simp only [hv, if_pos, DBM.bind_apply]
    rcases hr : execRaw (.createSchema s) st with ⟨res, st1⟩
    have hps1 : ProvStep st st1 := by
      have := execRaw_provStep (.createSchema s) rfl st
      rwa [hr] at this
    cases res with
    | error e => exact hps1
    | ok a =>
        have hps2 : ProvStep st1 (createTenantSchemaWithTables.goTables
            (getIndividualTableSQL s) st1).2 := by
          rw [goTables_eq_flat]
          exact execStmts_provStep _ (defsStmts_noDrop s) st1
        exact hps1.trans hps2
  · simp only [Bool.not_eq_true] at hv
    simp only [hv, Bool.false_eq_true, if_neg, not_false_iff]
    exact ProvStep.refl st

theorem contains_append_right (l : List String) (n : String) :
    (l ++ [n]).contains n = true := by
  rw [contains_iff]
  exact List.mem_append.mpr (Or.inr (List.mem_singleton.mpr rfl))

theorem createTenantSchemaWithTables_ok (s : String) (st st' : DBState) (u : Unit)
    (h : createTenantSchemaWithTables s st = (.ok u, st')) :
    validSchemaName s = true ∧ st'.schemas.contains s = true ∧
      ∀ t ∈ requiredTables, tableExistsB st' s t = true := by
  unfold createTenantSchemaWithTables at h
  by_cases hv : validSchemaName s = true
  · refine ⟨hv, ?_⟩
    simp only [hv, if_pos, DBM.bind_apply] at h
    rcases hr : execRaw (.createSchema s) st with ⟨res, st1⟩
    rw [hr] at h
    cases res with
    | error e => simp at h
    | ok a =>
        have hcs : st1.schemas.contains s = true := by
          rw [execRaw_apply] at hr
          by_cases hf : st.fails.contains (Stmt.createSchema s) = true
          · rw [hf] at hr
            simp at hr
          · simp only [Bool.not_eq_true] at hf
            rw [hf] at hr
            simp only [Bool.false_eq_true, if_neg, not_false_iff, Prod.mk.injEq] at hr
            have hst1 := hr.2
            rw [← hst1]
            simp only [applyStmt]
            by_cases hc : st.schemas.contains s = true
            · rw [if_pos hc]
              exact hc
            · rw [if_neg hc]
              exact contains_append_right st.schemas s
        have h2 : createMissingTables s requiredTables st1 = (.ok u, st') := by
          rw [createMissingTables_eq_flat, ← defsStmts_eq_flatStmts, ← goTables_eq_flat]
          exact h
        refine ⟨?_, fun t ht => createMissingTables_ok_creates s requiredTables st1 st' u h2 t ht ht⟩
        have hps := createMissingTables_provStep s requiredTables st1
        have h3 : (createMissingTables s requiredTables st1).2 = st' := by rw [h2]
        rw [h3] at hps
        exact hps.2.2.2.2.1 s hcs
  · simp only [Bool.not_eq_true] at hv
    simp only [hv, Bool.false_eq_true, if_neg, not_false_iff, throwDB_apply] at h
    simp at h

theorem validateTenantTables_eq (s : String) (st : DBState) :
    validateTenantTables s st =
      if (missingOf st s).length > 0 then createMissingTables s (missingOf st s) st
      else (.ok (), st) := by
  unfold validateTenantTables
  simp only [DBM.bind_apply, getState_apply]
  rw [DBM.ite_apply]
  split
  · rfl
  · rfl

theorem validateTenantTables_provStep (s : String) (st : DBState) :
    ProvStep st (validateTenantTables s st).2 := by
  rw [validateTenantTables_eq]
  split
  · exact createMissingTables_provStep s _ st
  · exact ProvStep.refl st

theorem validateTenantTables_noop (s : String) (st : DBState)
    (h : ∀ t ∈ requiredTables, tableExistsB st s t = true) :
    validateTenantTables s st = (.ok (), st) := by
  rw [validateTenantTables_eq, missingOf_empty st s h]
  simp

theorem validateTenantTables_ok (s : String) (st st' : DBState) (u : Unit)
    (h : validateTenantTables s st = (.ok u, st')) :
    ∀ t ∈ requiredTables, tableExistsB st' s t = true := by
  rw [validateTenantTables_eq] at h
  by_cases hm : (missingOf st s).length > 0
  · rw [if_pos hm] at h
    intro t ht
    by_cases he : tableExistsB st s t = true
    · have hps := createMissingTables_provStep s (missingOf st s) st
      have h2 : (createMissingTables s (missingOf st s) st).2 = st' := by rw [h]
      rw [h2] at hps
      exact hps.2.2.2.2.2 s t he
    · have hmem : t ∈ missingOf st s := by
        rw [missingOf_eq, List.mem_filter]
        refine ⟨ht, ?_⟩
        simp only [Bool.not_eq_true] at he
        simp [he]
      exact createMissingTables_ok_creates s _ st st' u h t hmem ht
  · rw [if_neg hm] at h
    have hnil : missingOf st s = [] := by
      simp only [gt_iff_lt, not_lt, Nat.le_zero] at hm
      exact List.length_eq_zero.mp hm
    have hst : st = st' := congrArg Prod.snd h
    subst hst
    intro t ht
    rw [missingOf_eq, List.filter_eq_nil_iff] at hnil
    have := hnil t ht
    simp only [Bool.not_eq_true', Bool.not_eq_false] at this
    exact this

theorem ensureTenantSchema_noop (tid : String) (sn? : Option String) (s : String)
    (st : DBState) (hres : (resolveSchemaName tid sn? st).1 = .ok s)
    (hsch : st.schemas.contains s = true)
    (hreq : ∀ t ∈ requiredTables, tableExistsB st s t = true) :
    ensureTenantSchema tid sn? st = (.ok s, st) := by
  have hr : resolveSchemaName tid sn? st = (.ok s, st) := by
    have h2 := resolveSchemaName_state tid sn? st
    rcases hp : resolveSchemaName tid sn? st with ⟨a, b⟩
    rw [hp] at hres h2
    simp only at hres h2
    rw [hres, h2]
  unfold ensureTenantSchema
  simp only [DBM.bind_apply, hr, getState_apply]
  rw [DBM.ite_apply, hsch]
  simp only [Bool.not_true, Bool.false_eq_true, if_neg, not_false_iff]
  rw [DBM.bind_apply, validateTenantTables_noop s st hreq]
  rfl

theorem ensureTenantSchema_ok (tid : String) (sn? : Option String) (s : String)
    (st st' : DBState) (h : ensureTenantSchema tid sn? st = (.ok s, st')) :
    st'.schemas.contains s = true ∧
      ∀ t ∈ requiredTables, tableExistsB st' s t = true := by
  unfold ensureTenantSchema at h
  simp only [DBM.bind_apply] at h
  rcases hp : resolveSchemaName tid sn? st with ⟨res0, st0⟩
  rw [hp] at h
  have hst0 : st0 = st := by
    have := resolveSchemaName_state tid sn? st
    rw [hp] at this
    exact this
  rw [hst0] at h
  cases res0 with
  | error e => simp at h
  | ok s0 =>
      replace h : (if (!st.schemas.contains s0) = true
          then createTenantSchemaWithTables s0 >>= fun _ => (pure s0 : DBM String)
          else validateTenantTables s0 >>= fun _ => (pure s0 : DBM String)) st =
            (.ok s, st') := h
      rw [DBM.ite_apply] at h
      by_cases hc : (!st.schemas.contains s0) = true
      · rw [if_pos hc, DBM.bind_apply] at h
        rcases hcr : createTenantSchemaWithTables s0 st with ⟨r1, st1⟩
        rw [hcr] at h
        cases r1 with
        | error e => simp at h
        | ok a =>
            replace h : (pure s0 : DBM String) st1 = (.ok s, st') := h
            rw [DBM.pure_apply] at h
            have hs0 : s0 = s := by
              have := congrArg Prod.fst h
              simpa using this
            have hst1 : st1 = st' := congrArg Prod.snd h
            subst hs0
            subst hst1
            obtain ⟨-, h2, h3⟩ := createTenantSchemaWithTables_ok s0 st st1 a hcr
            exact ⟨h2, h3⟩
      · rw [if_neg hc, DBM.bind_apply] at h
        have hc' : st.schemas.contains s0 = true := by
          simp only [Bool.not_eq_true'] at hc
          simpa using hc
        rcases hvr : validateTenantTables s0 st with ⟨r1, st1⟩
        rw [hvr] at h
        cases r1 with
        | error e => simp at h
        | ok a =>
            replace h : (pure s0 : DBM String) st1 = (.ok s, st') := h
            rw [DBM.pure_apply] at h
            have hs0 : s0 = s := by
              have := congrArg Prod.fst h
              simpa using this
            have hst1 : st1 = st' := congrArg Prod.snd h
            subst hs0
            subst hst1
            have hps := validateTenantTables_provStep s0 st
            rw [hvr] at hps
            refine ⟨hps.2.2.2.2.1 s0 hc', ?_⟩
            exact validateTenantTables_ok s0 st st1 a hvr

theorem ensureTenantSchema_provStep (tid : String) (sn? : Option String)
    (st : DBState) : ProvStep st (ensureTenantSchema tid sn? st).2 := by
  unfold ensureTenantSchema
  simp only [DBM.bind_apply]
  rcases hp : resolveSchemaName tid sn? st with ⟨res0, st0⟩
  have hst0 : st0 = st := by
    have := resolveSchemaName_state tid sn? st
    rw [hp] at this
    exact this
  rw [hst0]
  cases res0 with
  | error e => exact ProvStep.refl st
  | ok s0 =>
      show ProvStep st ((if (!st.schemas.contains s0) = true
        then createTenantSchemaWithTables s0 >>= fun _ => (pure s0 : DBM String)
        else validateTenantTables s0 >>= fun _ => (pure s0 : DBM String)) st).2
      rw [DBM.ite_apply]
      by_cases hc : (!st.schemas.contains s0) = true
      · rw [if_pos hc, DBM.bind_apply]
        rcases hcr : createTenantSchemaWithTables s0 st with ⟨r1, st1⟩
        have hps : ProvStep st st1 := by
          have := createTenantSchemaWithTables_provStep s0 st
          rwa [hcr] at this
        cases r1 with
        | error e => exact hps
        | ok a => exact hps
      · rw [if_neg hc, DBM.bind_apply]
        rcases hvr : validateTenantTables s0 st with ⟨r1, st1⟩
        have hps : ProvStep st st1 := by
          have := validateTenantTables_provStep s0 st
          rwa [hvr] at this
        cases r1 with
        | error e => exact hps
        | ok a => exact hps

theorem resolveSchemaName_ok_pair (tid : String) (sn? : Option String) (s : String)
    (st : DBState) (hres : (resolveSchemaName tid sn? st).1 = .ok s) :
    resolveSchemaName tid sn? st = (.ok s, st) := by
  have h2 := resolveSchemaName_state tid sn? st
  rcases hp : resolveSchemaName tid sn? st with ⟨a, b⟩
  rw [hp] at hres h2
  simp only at hres h2
  rw [hres, h2]

theorem contains_nil_false (x : Stmt) : ([] : List Stmt).contains x = false := rfl

theorem tableStmtsFor_touches (s t : String) (ht : t ∈ requiredTables) :
    (tableStmtsFor s t).all (touchesOnlyTable s t) = true := by
  obtain ⟨ics, hics⟩ := tableStmtsFor_shape s t ht
  rw [hics]
  exact tableDefStmts_touches s t ics

theorem createTenantSchemaWithTables_clean (s : String) (st : DBState)
    (hval : validSchemaName s = true)
    (habs : ∀ t ∈ requiredTables, tableExistsB st s t = false)
    (hschema : st.schemas.contains s = false)
    (hclean : st.fails = []) :
    createTenantSchemaWithTables s st =
      (.ok (), { st with
        schemas := st.schemas ++ [s],
        tables := st.tables ++
          requiredTables.map (fun t => { schema := s, name := t, rows := [] }),
        trace := st.trace ++ [Stmt.createSchema s] ++ flatStmts s requiredTables }) := by
  unfold createTenantSchemaWithTables
  simp only [hval, if_pos, DBM.bind_apply]
  have hcf : st.fails.contains (Stmt.createSchema s) = false := by
    rw [hclean]
    rfl
  rw [execRaw_apply, hcf]
  simp only [Bool.false_eq_true, if_neg, not_false_iff]
  simp only [applyStmt, hschema, Bool.false_eq_true, if_neg, not_false_iff]
  set st1 : DBState :=
    { st with schemas := st.schemas ++ [s], trace := st.trace ++ [Stmt.createSchema s] }
    with hst1
  rw [goTables_eq_flat, defsStmts_eq_flatStmts]
  rw [execStmts_clean _ st1 (by
    intro x hx
    show st.fails.contains x = false
    rw [hclean]
    rfl)]
  rw [applySeq_flatStmts s requiredTables (fun t ht => ht) requiredTables_nodup st1
    (by intro t ht; exact habs t ht)]

theorem ensureTenantSchema_heal_one (tid : String) (sn? : Option String)
    (s t : String) (st : DBState)
    (hres : (resolveSchemaName tid sn? st).1 = .ok s)
    (hsch : st.schemas.contains s = true)
    (hmem : t ∈ requiredTables)
    (hmiss : tableExistsB st s t = false)
    (hothers : ∀ u ∈ requiredTables, u ≠ t → tableExistsB st s u = true)
    (hclean : st.fails = []) :
    ensureTenantSchema tid sn? st =
      (.ok s, { st with tables := st.tables ++ [{ schema := s, name := t, rows := [] }],
                        trace := st.trace ++ tableStmtsFor s t }) := by
  have hr := resolveSchemaName_ok_pair tid sn? s st hres
  unfold ensureTenantSchema
  simp only [DBM.bind_apply, hr, getState_apply]
  rw [DBM.ite_apply, hsch]
  simp only [Bool.not_true, Bool.false_eq_true, if_neg, not_false_iff]
  rw [DBM.bind_apply, validateTenantTables_eq, missingOf_singleton st s t hmem hmiss hothers]
  simp only [List.length_singleton, gt_iff_lt, Nat.zero_lt_one, if_pos]
  rw [createMissingTables_eq_flat]
  have hflat : flatStmts s [t] = tableStmtsFor s t := by
    simp [flatStmts]
  rw [hflat]
  rw [execStmts_clean _ st (by rw [hclean]; intro x hx; rfl)]
  obtain ⟨ics, hics⟩ := tableStmtsFor_shape s t hmem
  rw [hics, applySeq_tableDef s t ics st hmiss, ← hics]
  rfl

theorem ensureTenantSchema_ok_val (tid : String) (sn? : Option String) (s : String)
    (st st' : DBState) (h : ensureTenantSchema tid sn? st = (.ok s, st')) :
    (resolveSchemaName tid sn? st).1 = .ok s := by
  unfold ensureTenantSchema at h
  simp only [DBM.bind_apply] at h
  rcases hp : resolveSchemaName tid sn? st with ⟨res0, st0⟩
  rw [hp] at h
  have hst0 : st0 = st := by
    have := resolveSchemaName_state tid sn? st
    rw [hp] at this
    exact this
  rw [hst0] at h
  cases res0 with
  | error e => simp at h
  | ok s0 =>
      replace h : (if (!st.schemas.contains s0) = true
          then createTenantSchemaWithTables s0 >>= fun _ => (pure s0 : DBM String)
          else validateTenantTables s0 >>= fun _ => (pure s0 : DBM String)) st =
            (.ok s, st') := h
      rw [DBM.ite_apply] at h
      have hval : s0 = s := by
        by_cases hc : (!st.schemas.contains s0) = true
        · rw [if_pos hc, DBM.bind_apply] at h
          rcases hcr : createTenantSchemaWithTables s0 st with ⟨r1, st1⟩
          rw [hcr] at h
          cases r1 with
          | error e => simp at h
          | ok a =>
              replace h : (pure s0 : DBM String) st1 = (.ok s, st') := h
              rw [DBM.pure_apply] at h
              have := congrArg Prod.fst h
              simpa using this
        · rw [if_neg hc, DBM.bind_apply] at h
          rcases hvr : validateTenantTables s0 st with ⟨r1, st1⟩
          rw [hvr] at h
          cases r1 with
          | error e => simp at h
          | ok a =>
              replace h : (pure s0 : DBM String) st1 = (.ok s, st') := h
              rw [DBM.pure_apply] at h
              have := congrArg Prod.fst h
              simpa using this
      simp [hval]

theorem tenantDB_execute_char (tid tmpl : String) (ps : List String)
    (st st' : DBState) (u : Unit)
    (h : tenantDB_executeInTenantSchema tid tmpl ps st = (.ok u, st')) :
    ∃ tenant, st.tenants.find? (fun x => x.id == tid) = some tenant ∧
      tenant.isActive = true ∧
      (∃ pre, st'.trace = pre ++
        [Stmt.query (substSchema tmpl tenant.schemaName) ps]) ∧
      st'.schemas.contains tenant.schemaName = true ∧
      ∀ t ∈ requiredTables, tableExistsB st' tenant.schemaName t = true := by
  unfold tenantDB_executeInTenantSchema getTenantDatabase at h
  simp only [DBM.bind_apply, getState_apply] at h
  rcases hf : st.tenants.find? (fun x => x.id == tid) with _ | tenant
  · rw [hf] at h
    simp only [throwDB_apply] at h
    simp at h
  · rw [hf] at h
    refine ⟨tenant, hf, ?_⟩
    replace h : ((if (!tenant.isActive) = true
        then (throwDB (DBError.tenantInactive tid) : DBM TenantDatabaseRec)
        else ensureTenantSchema tid (some tenant.schemaName) >>= fun sn =>
          pure { tenantId := tid, schemaName := some sn }) >>= fun db =>
            executeInTenantSchema db tmpl ps) st = (.ok u, st') := h
    rw [DBM.bind_apply, DBM.ite_apply] at h
    by_cases hact : (!tenant.isActive) = true
    · rw [if_pos hact, throwDB_apply] at h
      simp at h
    · rw [if_neg hact, DBM.bind_apply] at h
      have hact' : tenant.isActive = true := by
        simp only [Bool.not_eq_true'] at hact
        simpa using hact
      refine ⟨hact', ?_⟩
      rcases her : ensureTenantSchema tid (some tenant.schemaName) st with ⟨res1, st1⟩
      rw [her] at h
      cases res1 with
      | error e => simp at h
      | ok s1 =>
          have hs1 : s1 = tenant.schemaName := by
            have hval := ensureTenantSchema_ok_val tid (some tenant.schemaName) s1 st st1 her
            rw [resolveSchemaName_of_find tid tenant st hf] at hval
            simpa using hval.symm
          have hps1 : ProvStep st st1 := by
            have := ensureTenantSchema_provStep tid (some tenant.schemaName) st
            rwa [her] at this
          replace h : executeInTenantSchema
              { tenantId := tid, schemaName := some s1 } tmpl ps st1 = (.ok u, st') := h
          unfold executeInTenantSchema at h
          simp only [DBM.bind_apply] at h
          have hf1 : st1.tenants.find? (fun x => x.id == tid) = some tenant := by
            rw [hps1.1, hf]
          have hres1 : resolveSchemaName tid (some s1) st1 = (.ok tenant.schemaName, st1) := by
            rw [hs1]
            exact resolveSchemaName_of_find tid tenant st1 hf1
          rw [hres1] at h
          dsimp only at h
          rcases her2 : ensureTenantSchema tid (some tenant.schemaName) st1 with ⟨res2, st2⟩
          rw [her2] at h
          cases res2 with
          | error e => simp at h
          | ok s2 =>
              have hs2 : s2 = tenant.schemaName := by
                have hval := ensureTenantSchema_ok_val tid (some tenant.schemaName)
                  s2 st1 st2 her2
                rw [resolveSchemaName_of_find tid tenant st1 hf1] at hval
                simpa using hval.symm
              obtain ⟨hsc2, htb2⟩ := ensureTenantSchema_ok tid (some tenant.schemaName)
                s2 st1 st2 her2
              rw [hs2] at hsc2 htb2
              replace h : execRaw
                  (Stmt.query (substSchema tmpl tenant.schemaName) ps)
                  st2 = (.ok u, st') := h
              rw [execRaw_apply] at h
              by_cases hfl : st2.fails.contains
                  (Stmt.query (substSchema tmpl tenant.schemaName) ps) = true
              · rw [hfl] at h
                simp at h
              · simp only [Bool.not_eq_true] at hfl
                rw [hfl] at h
                simp only [Bool.false_eq_true, if_neg, not_false_iff] at h
                have hst' : st' = { st2 with trace := st2.trace ++
                    [Stmt.query (substSchema tmpl tenant.schemaName) ps] } := by
                  have := congrArg Prod.snd h
                  simpa [applyStmt] using this.symm
                subst hst'
                refine ⟨⟨st2.trace, rfl⟩, hsc2, ?_⟩
                intro t ht
                exact htb2 t ht

theorem runUpdateWhereActive_char (s tbl rid : String) (f : Nat → Row → Row)
    (st : DBState) (ti : TableInst)
    (hfind : st.tables.find? (fun x => x.schema == s && x.name == tbl) = some ti) :
    runUpdateWhereActive s tbl rid f st =
      (.ok (((ti.rows.filter (fun r => r.id == rid && r.is_active)).map
          (f st.now)).head?),
       { st with tables := st.tables.map (fun x =>
          if x.schema == s && x.name == tbl then
            { x with rows := x.rows.map (fun r =>
                if r.id == rid && r.is_active then f st.now r else r) }
          else x) }) := by
  unfold runUpdateWhereActive
  rw [hfind]

theorem executeInTenantSchema_noop_char (td : TenantDatabaseRec) (q : String)
    (ps : List String) (s : String) (st : DBState)
    (htd : td.schemaName = some s) (hne : s.isEmpty = false)
    (hsch : st.schemas.contains s = true)
    (hreq : ∀ t ∈ requiredTables, tableExistsB st s t = true)
    (hclean : st.fails = []) :
    executeInTenantSchema td q ps st =
      (.ok (), { st with trace := st.trace ++
        [Stmt.query (substSchema q s) ps] }) := by
  have hres : (resolveSchemaName td.tenantId (some s) st).1 = .ok s := by
    rw [resolveSchemaName_some td.tenantId s hne st]
  have hcf : st.fails.contains (Stmt.query (substSchema q s) ps) = false := by
    rw [hclean]
    rfl
  unfold executeInTenantSchema
  rw [htd]
  simp only [DBM.bind_apply, resolveSchemaName_some td.tenantId s hne,
    ensureTenantSchema_noop td.tenantId (some s) s st hres hsch hreq]
  rw [execRaw_apply, hcf]
  simp only [Bool.false_eq_true, if_neg, not_false_iff, applyStmt]

theorem updateInTenantSchema_char (td : TenantDatabaseRec) (tbl rid : String)
    (data : List (String × JVal)) (s : String) (st : DBState) (ti : TableInst)
    (htd : td.schemaName = some s) (hne : s.isEmpty = false)
    (hsch : st.schemas.contains s = true)
    (hreq : ∀ t ∈ requiredTables, tableExistsB st s t = true)
    (hclean : st.fails = [])
    (hfind : st.tables.find? (fun x => x.schema == s && x.name == tbl) = some ti) :
    updateInTenantSchema td tbl rid data st =
      (.ok (((ti.rows.filter (fun r => r.id == rid && r.is_active)).map
          (applyRowUpdate st.now data)).head?),
       { st with
          trace := st.trace ++ [Stmt.query
            (substSchema (buildUpdateQuery tbl (data.map (fun p => p.1))) s)
            (rid :: data.map (fun p => p.2.serialize))],
          tables := st.tables.map (fun x =>
            if x.schema == s && x.name == tbl then
              { x with rows := x.rows.map (fun r =>
                  if r.id == rid && r.is_active then applyRowUpdate st.now data r else r) }
            else x) }) := by
  unfold updateInTenantSchema
  rw [htd]
  simp only [DBM.bind_apply,
    executeInTenantSchema_noop_char td (buildUpdateQuery tbl (data.map (fun p => p.1)))
      (rid :: data.map (fun p => p.2.serialize)) s st htd hne hsch hreq hclean,
    resolveSchemaName_some td.tenantId s hne]
  rw [runUpdateWhereActive_char s tbl rid (fun clock => applyRowUpdate clock data)
    ({ st with trace := st.trace ++ [Stmt.query
      (substSchema (buildUpdateQuery tbl (data.map (fun p => p.1))) s)
      (rid :: data.map (fun p => p.2.serialize))] }) ti hfind]

theorem softDeleteInTenantSchema_char (td : TenantDatabaseRec) (tbl rid : String)
    (s : String) (st : DBState) (ti : TableInst)
    (htd : td.schemaName = some s) (hne : s.isEmpty = false)
    (hsch : st.schemas.contains s = true)
    (hreq : ∀ t ∈ requiredTables, tableExistsB st s t = true)
    (hclean : st.fails = [])
    (hfind : st.tables.find? (fun x => x.schema == s && x.name == tbl) = some ti) :
    softDeleteInTenantSchema td tbl rid st =
      (.ok (((ti.rows.filter (fun r => r.id == rid && r.is_active)).map
          (applySoftDelete st.now)).head?),
       { st with
          trace := st.trace ++ [Stmt.query
            (substSchema (buildSoftDeleteQuery tbl) s) [rid]],
          tables := st.tables.map (fun x =>
            if x.schema == s && x.name == tbl then
              { x with rows := x.rows.map (fun r =>
                  if r.id == rid && r.is_active then applySoftDelete st.now r else r) }
            else x) }) := by
  unfold softDeleteInTenantSchema
  rw [htd]
  simp only [DBM.bind_apply,
    executeInTenantSchema_noop_char td (buildSoftDeleteQuery tbl) [rid] s st htd hne
      hsch hreq hclean,
    resolveSchemaName_some td.tenantId s hne]
  rw [runUpdateWhereActive_char s tbl rid (fun clock => applySoftDelete clock)
    ({ st with trace := st.trace ++ [Stmt.query
      (substSchema (buildSoftDeleteQuery tbl) s) [rid]] }) ti hfind]

theorem base36Char_safe (d : Nat) (h : d < 36) : isSafeChar (base36Char d) = true := by
  unfold base36Char isSafeChar
  interval_cases d <;> decide

theorem natToDecimalGo_safe (fuel : Nat) :
    ∀ n acc, (∀ c ∈ acc, isSafeChar c = true) →
      ∀ c ∈ natToDecimalGo fuel n acc, isSafeChar c = true := by
  induction fuel with
  | zero => intro n acc hacc c hc; exact hacc c hc
  | succ fuel ih =>
      intro n acc hacc c hc
      rw [natToDecimalGo] at hc
      by_cases hn : n = 0
      · rw [if_pos hn] at hc
        exact hacc c hc
      · rw [if_neg hn] at hc
        refine ih (n / 10) _ ?_ c hc
        intro x hx
        rcases List.mem_cons.mp hx with rfl | hx
        · exact base36Char_safe (n % 10) (by omega)
        · exact hacc x hx

theorem natToDecimal_safe (n : Nat) :
    ∀ c ∈ (natToDecimal n).data, isSafeChar c = true := by
  unfold natToDecimal
  by_cases hn : n = 0
  · rw [if_pos hn]
    intro c hc
    have h0 : ("0" : String).data = ['0'] := rfl
    rw [h0] at hc
    rw [List.mem_singleton.mp hc]
    decide
  · rw [if_neg hn]
    intro c hc
    exact natToDecimalGo_safe n n [] (by intro x hx; cases hx) c hc

theorem base36Suffix_safe (digits : List Nat) :
    ∀ c ∈ (base36Suffix digits).data, isSafeChar c = true := by
  intro c hc
  unfold base36Suffix at hc
  obtain ⟨d, _, rfl⟩ := List.mem_map.mp hc
  exact base36Char_safe (d % 36) (Nat.mod_lt d (by omega))

theorem mk_isEmpty_cons (c : Char) (l : List Char) :
    (String.mk (c :: l)).isEmpty = false := by
  rw [Bool.eq_false_iff]
  intro h
  have h2 : String.mk (c :: l) = "" := (String.isEmpty_iff _).mp h
  have h3 : (String.mk (c :: l)).data = ("" : String).data := by rw [h2]
  cases h3

theorem genSchemaName_valid (nowMs : Nat) (digits : List Nat) :
    validSchemaName (genSchemaName nowMs digits) = true := by
  unfold genSchemaName removeDashes validSchemaName
  have hdata : ("tenant_" ++ natToDecimal nowMs ++ "_" ++ base36Suffix digits).data =
      ("tenant_" : String).data ++ (natToDecimal nowMs).data ++
        ("_" : String).data ++ (base36Suffix digits).data := by
    rw [String.data_append, String.data_append, String.data_append]
  have hsafe : ∀ c ∈ (("tenant_" ++ natToDecimal nowMs ++ "_" ++
      base36Suffix digits).data.filter (fun c => c != '-')), isSafeChar c = true := by
    intro c hc
    have hc' := List.mem_of_mem_filter hc
    rw [hdata] at hc'
    rcases List.mem_append.mp hc' with hc2 | hsuf
    · rcases List.mem_append.mp hc2 with hc3 | hund
      · rcases List.mem_append.mp hc3 with hpre | hdec
        · have hpd : ("tenant_" : String).data = ['t', 'e', 'n', 'a', 'n', 't', '_'] := rfl
          rw [hpd] at hpre
          fin_cases hpre <;> decide
        · exact natToDecimal_safe nowMs c hdec
      · have hud : ("_" : String).data = ['_'] := rfl
        rw [hud] at hund
        rw [List.mem_singleton.mp hund]
        decide
    · exact base36Suffix_safe digits c hsuf
  have hne : (⟨("tenant_" ++ natToDecimal nowMs ++ "_" ++
      base36Suffix digits).data.filter (fun c => c != '-')⟩ : String).isEmpty = false := by
    have hmem : 't' ∈ ("tenant_" ++ natToDecimal nowMs ++ "_" ++
        base36Suffix digits).data.filter (fun c => c != '-') := by
      rw [List.mem_filter, hdata]
      refine ⟨List.mem_append.mpr (Or.inl (List.mem_append.mpr (Or.inl
        (List.mem_append.mpr (Or.inl (by decide)))))), by decide⟩
    rcases hfe : ("tenant_" ++ natToDecimal nowMs ++ "_" ++
        base36Suffix digits).data.filter (fun c => c != '-') with _ | ⟨c, l⟩
    · rw [hfe] at hmem
      cases hmem
    · exact mk_isEmpty_cons c l
  rw [hne]
  simp only [Bool.not_false, Bool.true_and]
  rw [List.all_eq_true]
  intro c hc
  exact hsafe c hc

theorem validSchemaName_not_empty (s : String) (h : validSchemaName s = true) :
    s.isEmpty = false := by
  unfold validSchemaName at h
  cases hie : s.isEmpty
  · rfl
  · rw [hie] at h
    simp at h

theorem createTenantSchemaWithTables_schema_created (s : String) (st : DBState)
    (hval : validSchemaName s = true)
    (hnf : st.fails.contains (Stmt.createSchema s) = false) :
    ((createTenantSchemaWithTables s st).2).schemas.contains s = true := by
  unfold createTenantSchemaWithTables
  simp only [hval, if_pos, DBM.bind_apply]
  rw [execRaw_apply, hnf]
  simp only [Bool.false_eq_true, if_neg, not_false_iff]
  have h1 : (applyStmt (Stmt.createSchema s)
      { st with trace := st.trace ++ [Stmt.createSchema s] }).schemas.contains s = true := by
    simp only [applyStmt]
    by_cases hc : st.schemas.contains s = true
    · rw [if_pos hc]
      exact hc
    · rw [if_neg hc]
      exact contains_append_right st.schemas s
  have hps : ProvStep
      (applyStmt (Stmt.createSchema s) { st with trace := st.trace ++ [Stmt.createSchema s] })
      ((createTenantSchemaWithTables.goTables (getIndividualTableSQL s)
        (applyStmt (Stmt.createSchema s)
          { st with trace := st.trace ++ [Stmt.createSchema s] })).2) := by
    rw [goTables_eq_flat]
    exact execStmts_provStep _ (defsStmts_noDrop s) _
  exact hps.2.2.2.2.1 s h1

theorem ensureTenantSchema_schema_created (tid : String) (sn? : Option String)
    (s : String) (st : DBState)
    (hres : (resolveSchemaName tid sn? st).1 = .ok s)
    (hval : validSchemaName s = true)
    (hnf : st.fails.contains (Stmt.createSchema s) = false) :
    ((ensureTenantSchema tid sn? st).2).schemas.contains s = true := by
  have hr := resolveSchemaName_ok_pair tid sn? s st hres
  unfold ensureTenantSchema
  simp only [DBM.bind_apply, hr, getState_apply]
  rw [DBM.ite_apply]
  by_cases hc : (!st.schemas.contains s) = true
  · rw [if_pos hc, DBM.bind_apply]
    rcases hcr : createTenantSchemaWithTables s st with ⟨r1, st1⟩
    have h1 : st1.schemas.contains s = true := by
      have := createTenantSchemaWithTables_schema_created s st hval hnf
      rwa [hcr] at this
    cases r1 with
    | ok a => exact h1
    | error e2 => exact h1
  · rw [if_neg hc, DBM.bind_apply]
    have hc' : st.schemas.contains s = true := by
      simp only [Bool.not_eq_true'] at hc
      simpa using hc
    rcases hvr : validateTenantTables s st with ⟨r1, st1⟩
    have hps : ProvStep st st1 := by
      have := validateTenantTables_provStep s st
      rwa [hvr] at this
    have h1 := hps.2.2.2.2.1 s hc'
    cases r1 with
    | ok a => exact h1
    | error e2 => exact h1

theorem createTenant_err_char (nowMs : Nat) (digits : List Nat) (newId tname : String)
    (active : Bool) (st st' : DBState) (e : DBError)
    (h : createTenant nowMs digits newId tname active st = (.error e, st')) :
    st'.tenants = st.tenants ++
        [{ id := newId, name := tname, schemaName := genSchemaName nowMs digits,
           isActive := active }] ∧
    (∃ delta, st'.trace = st.trace ++ delta ∧ ∀ x ∈ delta, x.isDropSchema = false) ∧
    (st.fails.contains (Stmt.createSchema (genSchemaName nowMs digits)) = false →
      st'.schemas.contains (genSchemaName nowMs digits) = true) := by
  unfold createTenant at h
  simp only [DBM.bind_apply, modifyState_apply] at h
  rcases her : ensureTenantSchema newId (some (genSchemaName nowMs digits))
      { st with tenants := st.tenants ++
        [{ id := newId, name := tname, schemaName := genSchemaName nowMs digits,
           isActive := active }] } with ⟨res1, st1⟩
  rw [her] at h
  cases res1 with
  | ok a =>
      dsimp only at h
      rw [DBM.pure_apply] at h
      simp at h
  | error e2 =>
      have he : e2 = e := by
        have := congrArg Prod.fst h
        simpa using this
      have hst1 : st1 = st' := congrArg Prod.snd h
      subst he
      subst hst1
      have hps : ProvStep
          { st with tenants := st.tenants ++
            [{ id := newId, name := tname, schemaName := genSchemaName nowMs digits,
               isActive := active }] } st1 := by
        have := ensureTenantSchema_provStep newId (some (genSchemaName nowMs digits))
          { st with tenants := st.tenants ++
            [{ id := newId, name := tname, schemaName := genSchemaName nowMs digits,
               isActive := active }] }
        rwa [her] at this
      refine ⟨by rw [hps.1], ?_, ?_⟩
      · obtain ⟨delta, htr, hnd⟩ := hps.2.2.2.1
        exact ⟨delta, htr, hnd⟩
      · intro hnf
        have hval := genSchemaName_valid nowMs digits
        have hne := validSchemaName_not_empty _ hval
        have hres : (resolveSchemaName newId (some (genSchemaName nowMs digits))
            { st with tenants := st.tenants ++
              [{ id := newId, name := tname, schemaName := genSchemaName nowMs digits,
                 isActive := active }] }).1 = .ok (genSchemaName nowMs digits) := by
          rw [resolveSchemaName_some newId (genSchemaName nowMs digits) hne]
        have := ensureTenantSchema_schema_created newId
          (some (genSchemaName nowMs digits)) (genSchemaName nowMs digits)
          { st with tenants := st.tenants ++
            [{ id := newId, name := tname, schemaName := genSchemaName nowMs digits,
               isActive := active }] } hres hval hnf
        rwa [her] at this

theorem deleteTenant_char (id : String) (t : Tenant) (st : DBState)
    (hf : st.tenants.find? (fun x => x.id == id) = some t) :
    (validSchemaName t.schemaName = false →
       deleteTenant id st = (.error (.invalidSchemaName t.schemaName), st)) ∧
    (∀ x ∈ (deleteTenant id st).2.trace, x ∈ st.trace ∨
       (x = Stmt.dropSchema t.schemaName ∧ validSchemaName t.schemaName = true)) := by
  unfold deleteTenant
  simp only [DBM.bind_apply, getState_apply]
  rw [hf]
  constructor
  · intro hv
    dsimp only
    rw [DBM.ite_apply, hv]
    simp only [Bool.false_eq_true, if_neg, not_false_iff, throwDB_apply]
  · dsimp only
    rw [DBM.ite_apply]
    by_cases hv : validSchemaName t.schemaName = true
    · rw [if_pos hv, DBM.bind_apply, execRaw_apply]
      by_cases hfl : st.fails.contains (Stmt.dropSchema t.schemaName) = true
      · rw [hfl]
        simp only [if_pos]
        intro x hx
        rcases List.mem_append.mp hx with hx | hx
        · exact Or.inl hx
        · exact Or.inr ⟨List.mem_singleton.mp hx, hv⟩
      · simp only [Bool.not_eq_true] at hfl
        rw [hfl]
        simp only [Bool.false_eq_true, if_neg, not_false_iff, modifyState_apply]
        intro x hx
        have hx2 : x ∈ st.trace ++ [Stmt.dropSchema t.schemaName] := by
          have htr : (applyStmt (Stmt.dropSchema t.schemaName)
              { st with trace := st.trace ++ [Stmt.dropSchema t.schemaName] }).trace =
              st.trace ++ [Stmt.dropSchema t.schemaName] := applyStmt_trace _ _
          simpa [htr] using hx
        rcases List.mem_append.mp hx2 with hx | hx
        · exact Or.inl hx
        · exact Or.inr ⟨List.mem_singleton.mp hx, hv⟩
    · simp only [Bool.not_eq_true] at hv
      rw [hv]
      simp only [Bool.false_eq_true, if_neg, not_false_iff, throwDB_apply]
      intro x hx
      exact Or.inl hx

theorem execRaw_error_kind (s : Stmt) (st : DBState) (e : DBError)
    (h : (execRaw s st).1 = .error e) : e = .execFailure := by
  rw [execRaw_apply] at h
  by_cases hf : st.fails.contains s = true
  · rw [hf] at h
    simp only [if_pos] at h
    exact ((by simpa using h : DBError.execFailure = e)).symm
  · simp only [Bool.not_eq_true] at hf
    rw [hf] at h
    simp at h

theorem execStmts_error_kind (l : List Stmt) :
    ∀ (st : DBState) (e : DBError), (execStmts l st).1 = .error e → e = .execFailure := by
  induction l with
  | nil => intro st e h; simp [execStmts, DBM.pure_apply] at h
  | cons s rest ih =>
      intro st e h
      simp only [execStmts, DBM.bind_apply] at h
      rcases hr : execRaw s st with ⟨r1, st1⟩
      rw [hr] at h
      cases r1 with
      | ok a => exact ih st1 e h
      | error e2 =>
          have h2 : e2 = e := by simpa using h
          subst h2
          have := execRaw_error_kind s st e2
          rw [hr] at this
          exact this rfl

theorem createTenantSchemaWithTables_invalid (s : String) (st : DBState)
    (hval : validSchemaName s = false) :
    createTenantSchemaWithTables s st = (.error (.invalidSchemaName s), st) := by
  unfold createTenantSchemaWithTables
  rw [hval]
  simp only [Bool.false_eq_true, if_neg, not_false_iff, throwDB_apply]

theorem createTenantSchemaWithTables_no_invalid (s : String) (st : DBState)
    (hval : validSchemaName s = true) :
    ∀ n, (createTenantSchemaWithTables s st).1 ≠ .error (.invalidSchemaName n) := by
  intro n hcon
  unfold createTenantSchemaWithTables at hcon
  simp only [hval, if_pos, DBM.bind_apply] at hcon
  rcases hr : execRaw (.createSchema s) st with ⟨r1, st1⟩
  rw [hr] at hcon
  cases r1 with
  | error e2 =>
      have h2 : e2 = DBError.invalidSchemaName n := by simpa using hcon
      have := execRaw_error_kind (.createSchema s) st e2
      rw [hr] at this
      rw [h2] at this
      cases this rfl
  | ok a =>
      dsimp only at hcon
      rw [goTables_eq_flat] at hcon
      have := execStmts_error_kind (defsStmts (getIndividualTableSQL s)) st1
        (.invalidSchemaName n) hcon
      cases this

/-- Fixture: an active registered tenant used by the witness states. -/
def wTenant : Tenant :=
  { id := "t1", name := "Acme Law", schemaName := "tenant_ws1", isActive := true }

/-- Fixture: a healthy, fully provisioned database state. -/
def wProvisionedState : DBState :=
  { schemas := ["tenant_ws1"],
    tables := requiredTables.map (fun t => { schema := "tenant_ws1", name := t, rows := [] }),
    tenants := [wTenant], trace := [], fails := [], now := 7 }

/-- Fixture: a provisioned state whose schema lacks exactly the `tasks`
table. -/
def wDriftState : DBState :=
  { schemas := ["tenant_ws1"],
    tables := (requiredTables.filter (fun u => u != "tasks")).map
      (fun u => { schema := "tenant_ws1", name := u, rows := [] }),
    tenants := [wTenant], trace := [], fails := [], now := 7 }

/-- Claim C1: for every tenant whose namespace and full required table set
already exist, a second call to `ensureTenantSchema` returns the same
namespace name, issues no DDL (the state, including the statement trace,
is unchanged, so no schema and no table is created), and does not raise an
error. -/
theorem C1_ensureTenantSchema_idempotent (tid : String) (sn? : Option String)
    (s : String) (st : DBState)
    (hres : (resolveSchemaName tid sn? st).1 = .ok s)
    (hsch : st.schemas.contains s = true)
    (hreq : ∀ t ∈ requiredTables, tableExistsB st s t = true) :
    ensureTenantSchema tid sn? st = (.ok s, st) :=
  ensureTenantSchema_noop tid sn? s st hres hsch hreq

/-- Witness for C1 at a concrete provisioned state. -/
theorem C1_ensureTenantSchema_idempotent_witness :
    ((resolveSchemaName "t1" (some "tenant_ws1") wProvisionedState).1 =
        .ok "tenant_ws1") ∧
    (wProvisionedState.schemas.contains "tenant_ws1" = true) ∧
    (∀ t ∈ requiredTables, tableExistsB wProvisionedState "tenant_ws1" t = true) ∧
    ensureTenantSchema "t1" (some "tenant_ws1") wProvisionedState =
      (.ok "tenant_ws1", wProvisionedState) :=
  ⟨by decide, by decide, by decide,
   C1_ensureTenantSchema_idempotent "t1" (some "tenant_ws1") "tenant_ws1"
     wProvisionedState (by decide) (by decide) (by decide)⟩

/-- Claim C2: in an existing namespace missing exactly one required table,
`ensureTenantSchema` creates exactly that table (appending one empty table
instance, leaving every other table and its rows untouched), the issued
statements are exactly that table's batch, every issued statement only
creates the missing table or one of its indexes, and none is a drop. -/
theorem C2_ensure_heals_only_missing_table (tid : String) (sn? : Option String)
    (s t : String) (st : DBState)
    (hres : (resolveSchemaName tid sn? st).1 = .ok s)
    (hsch : st.schemas.contains s = true)
    (hmem : t ∈ requiredTables)
    (hmiss : tableExistsB st s t = false)
    (hothers : ∀ u ∈ requiredTables, u ≠ t → tableExistsB st s u = true)
    (hclean : st.fails = []) :
    ensureTenantSchema tid sn? st =
      (.ok s, { st with tables := st.tables ++ [{ schema := s, name := t, rows := [] }],
                        trace := st.trace ++ tableStmtsFor s t }) ∧
    (tableStmtsFor s t).all (touchesOnlyTable s t) = true ∧
    (∀ x ∈ tableStmtsFor s t, x.isDropSchema = false) :=
  ⟨ensureTenantSchema_heal_one tid sn? s t st hres hsch hmem hmiss hothers hclean,
   tableStmtsFor_touches s t hmem, tableStmtsFor_noDrop s t⟩

/-- Witness for C2 at a concrete state missing only the `tasks` table. -/
theorem C2_ensure_heals_only_missing_table_witness :
    ((resolveSchemaName "t1" (some "tenant_ws1") wDriftState).1 = .ok "tenant_ws1") ∧
    (wDriftState.schemas.contains "tenant_ws1" = true) ∧
    ("tasks" ∈ requiredTables) ∧
    (tableExistsB wDriftState "tenant_ws1" "tasks" = false) ∧
    (∀ u ∈ requiredTables, u ≠ "tasks" →
      tableExistsB wDriftState "tenant_ws1" u = true) ∧
    (ensureTenantSchema "t1" (some "tenant_ws1") wDriftState =
      (.ok "tenant_ws1", { wDriftState with
        tables := wDriftState.tables ++
          [{ schema := "tenant_ws1", name := "tasks", rows := [] }],
        trace := wDriftState.trace ++ tableStmtsFor "tenant_ws1" "tasks" }) ∧
     (tableStmtsFor "tenant_ws1" "tasks").all (touchesOnlyTable "tenant_ws1" "tasks") =
       true ∧
     (∀ x ∈ tableStmtsFor "tenant_ws1" "tasks", x.isDropSchema = false)) :=
  ⟨by decide, by decide, by decide, by decide, by decide,
   C2_ensure_heals_only_missing_table "t1" (some "tenant_ws1") "tenant_ws1" "tasks"
     wDriftState (by decide) (by decide) (by decide) (by decide) (by decide) (by decide)⟩

/-- Fixture: an empty database whose driver fails exactly the first tenant
table creation, so schema creation succeeds and table creation fails. -/
def cexState : DBState :=
  { schemas := [], tables := [], tenants := [], trace := [],
    fails := [Stmt.createTable "tenant_5_a" "clients"], now := 0 }

/-- Counterexample to claim C3: at a concrete run in which namespace
creation succeeds and the first table creation then fails, `createTenant`
surfaces the provisioning error but does not delete the partially created
namespace (the schema remains, and no drop statement is ever issued) and
leaves the registry row referencing the half-built namespace. -/
theorem C3_createTenant_rollback_counterexample :
    ((createTenant 5 [10] "t1" "Acme" true cexState).1 =
        .error .execFailure) ∧
    ((createTenant 5 [10] "t1" "Acme" true cexState).2.schemas.contains
        "tenant_5_a" = true) ∧
    ((createTenant 5 [10] "t1" "Acme" true cexState).2.tenants.any
        (fun x => x.id == "t1") = true) ∧
    ((createTenant 5 [10] "t1" "Acme" true cexState).2.trace.any
        (fun x => x.isDropSchema) = false) := by
  decide

/-- Amended claim C3: when `createTenant` fails during provisioning, the
error is surfaced to the caller, but no rollback happens: the registry row
is left in place referencing the half-built namespace, the trace gained no
drop statement, and when the namespace-creation statement itself succeeded
the created schema remains in place.  (Recovery relies on the idempotent
re-provisioning of a later access instead.) -/
theorem C3_createTenant_failure_no_rollback (nowMs : Nat) (digits : List Nat)
    (newId tname : String) (active : Bool) (st : DBState) (e : DBError)
    (h : (createTenant nowMs digits newId tname active st).1 = .error e) :
    ((createTenant nowMs digits newId tname active st).2).tenants =
        st.tenants ++
          [{ id := newId, name := tname, schemaName := genSchemaName nowMs digits,
             isActive := active }] ∧
    (∃ delta, ((createTenant nowMs digits newId tname active st).2).trace =
        st.trace ++ delta ∧ ∀ x ∈ delta, x.isDropSchema = false) ∧
    (st.fails.contains (Stmt.createSchema (genSchemaName nowMs digits)) = false →
      ((createTenant nowMs digits newId tname active st).2).schemas.contains
        (genSchemaName nowMs digits) = true) := by
  rcases hp : createTenant nowMs digits newId tname active st with ⟨r, st2⟩
  rw [hp] at h
  replace h : r = .error e := h
  subst h
  exact createTenant_err_char nowMs digits newId tname active st st2 e hp

/-- Witness for the amended C3 at the counterexample run. -/
theorem C3_createTenant_failure_no_rollback_witness :
    ((createTenant 5 [10] "t1" "Acme" true cexState).1 =
        .error DBError.execFailure) ∧
    (((createTenant 5 [10] "t1" "Acme" true cexState).2).tenants =
        cexState.tenants ++
          [{ id := "t1", name := "Acme", schemaName := genSchemaName 5 [10],
             isActive := true }] ∧
     (∃ delta, ((createTenant 5 [10] "t1" "Acme" true cexState).2).trace =
        cexState.trace ++ delta ∧ ∀ x ∈ delta, x.isDropSchema = false) ∧
     (cexState.fails.contains (Stmt.createSchema (genSchemaName 5 [10])) = false →
      ((createTenant 5 [10] "t1" "Acme" true cexState).2).schemas.contains
        (genSchemaName 5 [10]) = true)) :=
  ⟨by decide,
   C3_createTenant_failure_no_rollback 5 [10] "t1" "Acme" true cexState
     .execFailure (by decide)⟩

/-- Claim C4: a successful `tenantDB.executeInTenantSchema` run resolves
the tenant in the registry (which must exist and be active), executes the
template with every occurrence of the schema placeholder replaced by the
registry-resolved namespace name — never a caller-supplied string, the
entry point accepts none — with the values passed as bound parameters
unchanged, and at the moment the query is submitted the namespace is
provisioned (schema present and all required tables present). -/
theorem C4_gateway_substitutes_registry_namespace (tid tmpl : String)
    (ps : List String) (st : DBState) (u : Unit)
    (h : (tenantDB_executeInTenantSchema tid tmpl ps st).1 = .ok u) :
    ∃ tenant, st.tenants.find? (fun x => x.id == tid) = some tenant ∧
      tenant.isActive = true ∧
      (∃ pre, ((tenantDB_executeInTenantSchema tid tmpl ps st).2).trace =
        pre ++ [Stmt.query (substSchema tmpl tenant.schemaName) ps]) ∧
      ((tenantDB_executeInTenantSchema tid tmpl ps st).2).schemas.contains
        tenant.schemaName = true ∧
      ∀ t ∈ requiredTables,
        tableExistsB ((tenantDB_executeInTenantSchema tid tmpl ps st).2)
          tenant.schemaName t = true := by
  rcases hp : tenantDB_executeInTenantSchema tid tmpl ps st with ⟨r, st2⟩
  rw [hp] at h
  replace h : r = .ok u := h
  subst h
  exact tenantDB_execute_char tid tmpl ps st st2 u hp

/-- Witness for C4 at a concrete provisioned state and template. -/
theorem C4_gateway_substitutes_registry_namespace_witness :
    ((tenantDB_executeInTenantSchema "t1"
        "SELECT * FROM ${schema}.clients WHERE id = $1" ["x"] wProvisionedState).1 =
      .ok ()) ∧
    (∃ tenant, wProvisionedState.tenants.find? (fun x => x.id == "t1") = some tenant ∧
      tenant.isActive = true ∧
      (∃ pre, ((tenantDB_executeInTenantSchema "t1"
          "SELECT * FROM ${schema}.clients WHERE id = $1" ["x"]
          wProvisionedState).2).trace =
        pre ++ [Stmt.query (substSchema "SELECT * FROM ${schema}.clients WHERE id = $1"
          tenant.schemaName) ["x"]]) ∧
      ((tenantDB_executeInTenantSchema "t1"
          "SELECT * FROM ${schema}.clients WHERE id = $1" ["x"]
          wProvisionedState).2).schemas.contains tenant.schemaName = true ∧
      ∀ t ∈ requiredTables,
        tableExistsB ((tenantDB_executeInTenantSchema "t1"
          "SELECT * FROM ${schema}.clients WHERE id = $1" ["x"]
          wProvisionedState).2) tenant.schemaName t = true) :=
  ⟨by decide,
   C4_gateway_substitutes_registry_namespace "t1"
     "SELECT * FROM ${schema}.clients WHERE id = $1" ["x"] wProvisionedState ()
     (by decide)⟩

/-- Fixture: a registered tenant whose stored schema name violates the
safe-identifier pattern. -/
def wBadTenant : Tenant :=
  { id := "t9", name := "Tampered", schemaName := "bad-name\"; DROP SCHEMA x", isActive := true }

/-- Fixture: a state holding the tampered tenant. -/
def wBadState : DBState :=
  { schemas := [], tables := [], tenants := [wBadTenant], trace := [], fails := [],
    now := 0 }

/-- Claim C5: `deleteTenant` validates the stored schema name against the
safe-identifier pattern before interpolating it into the drop: when the
stored name fails the pattern the call throws `Invalid schema name` with
the state untouched (so no drop is issued), and any drop statement the
call ever adds to the trace carries a name satisfying the pattern. -/
theorem C5_deleteTenant_validates_before_drop (id : String) (t : Tenant)
    (st : DBState) (hf : st.tenants.find? (fun x => x.id == id) = some t) :
    (validSchemaName t.schemaName = false →
       deleteTenant id st = (.error (.invalidSchemaName t.schemaName), st)) ∧
    (∀ x ∈ (deleteTenant id st).2.trace, x ∈ st.trace ∨
       (x = Stmt.dropSchema t.schemaName ∧ validSchemaName t.schemaName = true)) :=
  deleteTenant_char id t st hf

/-- Witness for C5 at a concrete state with a tampered schema name. -/
theorem C5_deleteTenant_validates_before_drop_witness :
    (wBadState.tenants.find? (fun x => x.id == "t9") = some wBadTenant) ∧
    ((validSchemaName wBadTenant.schemaName = false →
       deleteTenant "t9" wBadState =
         (.error (.invalidSchemaName wBadTenant.schemaName), wBadState)) ∧
     (∀ x ∈ (deleteTenant "t9" wBadState).2.trace, x ∈ wBadState.trace ∨
       (x = Stmt.dropSchema wBadTenant.schemaName ∧
        validSchemaName wBadTenant.schemaName = true))) :=
  ⟨by decide, C5_deleteTenant_validates_before_drop "t9" wBadTenant wBadState (by decide)⟩

/-- Counterexample to claim C6: the insert helper infers casts from column
names only, never from value shape; a field whose string value matches the
canonical 8-4-4-4-12 hex identifier format receives a plain uncast
placeholder, not an identifier (`uuid`) cast. -/
theorem C6_insert_uuid_cast_counterexample :
    matchesUuidPattern "123e4567-e89b-12d3-a456-426614174000" = true ∧
    insertPlaceholders ["client_id"] = ["$1"] ∧
    buildInsertQuery "projects"
      [("client_id", JVal.str "123e4567-e89b-12d3-a456-426614174000")] =
      "INSERT INTO ${schema}.projects (client_id) VALUES ($1) RETURNING *" := by
  decide

/-- Amended claim C6: in the insert helper, a field named `tags` yields a
placeholder cast to `jsonb` (as do the other structured-data field names),
a field with a date-bearing name from the fixed list (`birth_date`,
`due_date`, `start_date`, `end_date`, `paid_at`, `completed_at`) yields a
placeholder cast to `date`, and every other field — including one whose
string value matches the identifier format — yields a plain uncast
placeholder: no value-based identifier cast exists in the insert path. -/
theorem C6_insert_cast_inference (i : Nat) (col : String) :
    (col = "tags" → insertPlaceholderFor i col = "$" ++ toString (i + 1) ++ "::jsonb") ∧
    (col ∈ dateFields → insertPlaceholderFor i col = "$" ++ toString (i + 1) ++ "::date") ∧
    (col ∉ jsonbFields → col ∉ dateFields →
      insertPlaceholderFor i col = "$" ++ toString (i + 1)) := by
  refine ⟨?_, ?_, ?_⟩
  · rintro rfl
    unfold insertPlaceholderFor
    rw [if_pos (by decide : jsonbFields.contains "tags" = true)]
  · intro hd
    fin_cases hd <;>
      (unfold insertPlaceholderFor
       rw [if_neg (by decide), if_pos (by decide)])
  · intro h1 h2
    unfold insertPlaceholderFor
    rw [if_neg (fun hc => h1 ((contains_iff jsonbFields col).mp hc)),
      if_neg (fun hc => h2 ((contains_iff dateFields col).mp hc))]

/-- Witness for the amended C6 at concrete columns. -/
theorem C6_insert_cast_inference_witness :
    insertPlaceholderFor 0 "tags" = "$" ++ toString (0 + 1) ++ "::jsonb" ∧
    insertPlaceholderFor 1 "due_date" = "$" ++ toString (1 + 1) ++ "::date" ∧
    insertPlaceholderFor 2 "client_id" = "$" ++ toString (2 + 1) :=
  ⟨(C6_insert_cast_inference 0 "tags").1 rfl,
   (C6_insert_cast_inference 1 "due_date").2.1 (by decide),
   (C6_insert_cast_inference 2 "client_id").2.2 (by decide) (by decide)⟩

/-- Fixture: an active client row of the witness state. -/
def wRow : Row :=
  { id := "r1", is_active := true, updated_at := 0, fields := [("notes", JVal.str "old")] }

/-- Fixture: a provisioned state holding one active client row. -/
def wRowState : DBState :=
  { schemas := ["tenant_ws1"],
    tables := requiredTables.map (fun t =>
      { schema := "tenant_ws1", name := t,
        rows := if t == "clients" then [wRow] else [] }),
    tenants := [wTenant], trace := [], fails := [], now := 7 }

/-- Fixture: the gateway object of the witness tenant. -/
def wTD : TenantDatabaseRec := { tenantId := "t1", schemaName := some "tenant_ws1" }

/-- Claim C7: against a table with no row matching `id = given ∧
is_active`, the update helper and the soft-delete helper both return `null`
(`Option.none`) without error; the returned row is always the first
matching active row after the mutation; the update only rewrites rows
satisfying `id = given ∧ is_active = true` (every other row of every table
is mapped to itself); and every rewritten row is stamped with
`updated_at = now()`. -/
theorem C7_update_softDelete_null_and_frame (td : TenantDatabaseRec)
    (tbl rid : String) (data : List (String × JVal)) (s : String) (st : DBState)
    (ti : TableInst)
    (htd : td.schemaName = some s) (hne : s.isEmpty = false)
    (hsch : st.schemas.contains s = true)
    (hreq : ∀ t ∈ requiredTables, tableExistsB st s t = true)
    (hclean : st.fails = [])
    (hfind : st.tables.find? (fun x => x.schema == s && x.name == tbl) = some ti) :
    ((updateInTenantSchema td tbl rid data st).1 =
      .ok (((ti.rows.filter (fun r => r.id == rid && r.is_active)).map
        (applyRowUpdate st.now data)).head?)) ∧
    ((softDeleteInTenantSchema td tbl rid st).1 =
      .ok (((ti.rows.filter (fun r => r.id == rid && r.is_active)).map
        (applySoftDelete st.now)).head?)) ∧
    (ti.rows.filter (fun r => r.id == rid && r.is_active) = [] →
      (updateInTenantSchema td tbl rid data st).1 = .ok none ∧
      (softDeleteInTenantSchema td tbl rid st).1 = .ok none) ∧
    (((updateInTenantSchema td tbl rid data st).2).tables = st.tables.map (fun x =>
      if x.schema == s && x.name == tbl then
        { x with rows := x.rows.map (fun r =>
            if r.id == rid && r.is_active then applyRowUpdate st.now data r else r) }
      else x)) ∧
    (∀ r : Row, (applyRowUpdate st.now data r).updated_at = st.now) := by
  have hu := updateInTenantSchema_char td tbl rid data s st ti htd hne hsch hreq
    hclean hfind
  have hs := softDeleteInTenantSchema_char td tbl rid s st ti htd hne hsch hreq
    hclean hfind
  refine ⟨by rw [hu], by rw [hs], ?_, by rw [hu], fun r => rfl⟩
  intro hnil
  constructor
  · rw [hu, hnil]
    rfl
  · rw [hs, hnil]
    rfl

/-- Witness for C7 at the concrete row state (matching active row
present). -/
theorem C7_update_softDelete_null_and_frame_witness :
    (wTD.schemaName = some "tenant_ws1") ∧
    (("tenant_ws1" : String).isEmpty = false) ∧
    (wRowState.schemas.contains "tenant_ws1" = true) ∧
    (∀ t ∈ requiredTables, tableExistsB wRowState "tenant_ws1" t = true) ∧
    (wRowState.fails = []) ∧
    (wRowState.tables.find? (fun x => x.schema == "tenant_ws1" &&
      x.name == "clients") =
        some { schema := "tenant_ws1", name := "clients", rows := [wRow] }) ∧
    ((updateInTenantSchema wTD "clients" "r1" [("notes", JVal.str "new")]
        wRowState).1 =
      .ok ((((⟨"tenant_ws1", "clients", [wRow]⟩ : TableInst).rows.filter
        (fun r => r.id == "r1" && r.is_active)).map
        (applyRowUpdate wRowState.now [("notes", JVal.str "new")])).head?)) :=
  ⟨by decide, by decide, by decide, by decide, by decide, by decide,
   (C7_update_softDelete_null_and_frame wTD "clients" "r1"
     [("notes", JVal.str "new")] "tenant_ws1" wRowState
     { schema := "tenant_ws1", name := "clients", rows := [wRow] }
     (by decide) (by decide) (by decide) (by decide) (by decide) (by decide)).1⟩

/-- Fixture: a regular (non-admin) principal carrying tenant `t1`. -/
def cexUser : Principal := { role := "user", tenantId := some "t1" }

/-- Fixture: a registry in which tenant `t1` exists but is inactive. -/
def cexInactiveRegistry : List Tenant :=
  [{ id := "t1", name := "Acme", schemaName := "s1", isActive := false }]

/-- Counterexample to claim C8: the gate's denial output distinguishes the
tenant-not-found run from the tenant-inactive run — the two responses carry
different bodies (`Tenant not found` vs `Tenant is inactive`), so the
denial does reveal which case occurred. -/
theorem C8_denial_distinguishes_counterexample :
    validateTenantAccess (some cexUser) [] =
      .respond { status := 403, errorMsg := "Access denied: Tenant not found" } ∧
    validateTenantAccess (some cexUser) cexInactiveRegistry =
      .respond { status := 403, errorMsg := "Access denied: Tenant is inactive" } ∧
    validateTenantAccess (some cexUser) [] ≠
      validateTenantAccess (some cexUser) cexInactiveRegistry := by
  decide

/-- Amended claim C8: for a regular principal with a (nonempty) tenant
association, both failure runs produce a 403 denial whose body starts with
a generic denial prefix, but the bodies differ: the tenant-not-found run
answers `Access denied: Tenant not found`, the tenant-inactive run answers
`Access denied: Tenant is inactive` — the two cases are distinguishable
from the response. -/
theorem C8_denial_bodies (u : Principal) (tid : String) (tenants : List Tenant)
    (hrole1 : u.role ≠ "admin") (hrole2 : u.role ≠ "super_admin")
    (htid : u.tenantId = some tid) (hne : tid.isEmpty = false) :
    (tenants.find? (fun t => t.id == tid) = none →
      validateTenantAccess (some u) tenants =
        .respond { status := 403, errorMsg := "Access denied: Tenant not found" }) ∧
    (∀ t, tenants.find? (fun x => x.id == tid) = some t → t.isActive = false →
      validateTenantAccess (some u) tenants =
        .respond { status := 403, errorMsg := "Access denied: Tenant is inactive" }) := by
  unfold validateTenantAccess
  have hr : (u.role == "admin" || u.role == "super_admin") = false := by
    have h1 : (u.role == "admin") = false := by
      rw [beq_eq_false_iff_ne]
      exact hrole1
    have h2 : (u.role == "super_admin") = false := by
      rw [beq_eq_false_iff_ne]
      exact hrole2
    rw [h1, h2]
    rfl
  dsimp only
  rw [hr]
  simp only [Bool.false_eq_true, if_neg, not_false_iff]
  rw [htid]
  simp only [Option.getD_some]
  rw [hne]
  simp only [Bool.false_eq_true, if_neg, not_false_iff]
  constructor
  · intro hf
    rw [hf]
  · intro t hf hact
    rw [hf]
    dsimp only
    rw [hact]
    simp

/-- Witness for the amended C8 at the two concrete registries. -/
theorem C8_denial_bodies_witness :
    (cexUser.role ≠ "admin") ∧ (cexUser.role ≠ "super_admin") ∧
    (cexUser.tenantId = some "t1") ∧ (("t1" : String).isEmpty = false) ∧
    validateTenantAccess (some cexUser) cexInactiveRegistry =
      .respond { status := 403, errorMsg := "Access denied: Tenant is inactive" } :=
  ⟨by decide, by decide, by decide, by decide,
   (C8_denial_bodies cexUser "t1" cexInactiveRegistry (by decide) (by decide)
     (by decide) (by decide)).2
     { id := "t1", name := "Acme", schemaName := "s1", isActive := false }
     (by decide) (by decide)⟩

/-- Fixture: an empty, fault-free database. -/
def wEmptyState : DBState :=
  { schemas := [], tables := [], tenants := [], trace := [], fails := [], now := 0 }

/-- Claim C9: when the namespace is absent, provisioning validates the
generated name against the safe-identifier pattern first (an invalid name
is rejected with nothing issued), and a valid name leads to the schema
creation followed by every required table, the submitted statements being
exactly the concatenation of the per-table batches — each batch touching
only its own table — and never one multi-statement blob (each traced
`Stmt` is a single statement by construction). -/
theorem C9_provisioning_validates_and_per_table (s : String) (st : DBState)
    (habs : ∀ t ∈ requiredTables, tableExistsB st s t = false)
    (hschema : st.schemas.contains s = false)
    (hclean : st.fails = []) :
    (validSchemaName s = false →
      createTenantSchemaWithTables s st = (.error (.invalidSchemaName s), st)) ∧
    (validSchemaName s = true →
      createTenantSchemaWithTables s st =
        (.ok (), { st with
          schemas := st.schemas ++ [s],
          tables := st.tables ++
            requiredTables.map (fun t => { schema := s, name := t, rows := [] }),
          trace := st.trace ++ [Stmt.createSchema s] ++ flatStmts s requiredTables })) ∧
    (flatStmts s requiredTables = defsStmts (getIndividualTableSQL s)) ∧
    (∀ t ∈ requiredTables, (tableStmtsFor s t).all (touchesOnlyTable s t) = true) :=
  ⟨fun hv => createTenantSchemaWithTables_invalid s st hv,
   fun hv => createTenantSchemaWithTables_clean s st hv habs hschema hclean,
   (defsStmts_eq_flatStmts s).symm,
   fun t ht => tableStmtsFor_touches s t ht⟩

/-- Witness for C9 at a concrete empty state and a fresh valid name. -/
theorem C9_provisioning_validates_and_per_table_witness :
    (∀ t ∈ requiredTables, tableExistsB wEmptyState "tenant_w9" t = false) ∧
    (wEmptyState.schemas.contains "tenant_w9" = false) ∧
    (wEmptyState.fails = []) ∧
    (validSchemaName "tenant_w9" = true →
      createTenantSchemaWithTables "tenant_w9" wEmptyState =
        (.ok (), { wEmptyState with
          schemas := wEmptyState.schemas ++ ["tenant_w9"],
          tables := wEmptyState.tables ++
            requiredTables.map (fun t => { schema := "tenant_w9", name := t, rows := [] }),
          trace := wEmptyState.trace ++ [Stmt.createSchema "tenant_w9"] ++
            flatStmts "tenant_w9" requiredTables })) :=
  ⟨by decide, by decide, by decide,
   (C9_provisioning_validates_and_per_table "tenant_w9" wEmptyState (by decide)
     (by decide) (by decide)).2.1⟩

/-- Claim C10: every schema name `createTenant` generates — the hyphen-free
normalization of `tenant_`, the decimal clock reading, `_`, and the
lower-case base-36 random suffix — matches the safe-identifier pattern, so
the pattern guard of `createTenantSchemaWithTables` (the same
`validSchemaName` test `deleteTenant` runs) never rejects a generated
name: provisioning such a name can never fail with `Invalid schema
name`. -/
theorem C10_generated_schema_name_safe (nowMs : Nat) (digits : List Nat) :
    validSchemaName (genSchemaName nowMs digits) = true ∧
    ∀ (st : DBState) (n : String),
      (createTenantSchemaWithTables (genSchemaName nowMs digits) st).1 ≠
        .error (.invalidSchemaName n) :=
  ⟨genSchemaName_valid nowMs digits,
   fun st n => createTenantSchemaWithTables_no_invalid (genSchemaName nowMs digits)
     st (genSchemaName_valid nowMs digits) n⟩

/-- Witness for C10 at a concrete clock reading and random draw. -/
theorem C10_generated_schema_name_safe_witness :
    validSchemaName (genSchemaName 1717171717171 [10, 35, 0, 9, 22, 5]) = true ∧
    (createTenantSchemaWithTables (genSchemaName 1717171717171 [10, 35, 0, 9, 22, 5])
        wEmptyState).1 ≠
      .error (.invalidSchemaName (genSchemaName 1717171717171 [10, 35, 0, 9, 22, 5])) :=
  ⟨(C10_generated_schema_name_safe 1717171717171 [10, 35, 0, 9, 22, 5]).1,
   (C10_generated_schema_name_safe 1717171717171 [10, 35, 0, 9, 22, 5]).2 wEmptyState
     (genSchemaName 1717171717171 [10, 35, 0, 9, 22, 5])⟩
